import Mathlib

/-!
# httpdb: entries, token registry, serialization actor and lock waitlist

A shallow embedding of the Go package `main` of btnmasher/httpdb.

* A Go `map[string]T` is a function `String → Option T`.
* A `*Entry` is an address (`Nat`) into `World.mem`; `&Entry{...}` takes the
  next unused address `World.brk`.
* A `chan error` made with `make(chan error, 1)` is named by a `Nat`.
* A send on a channel is recorded as a `Msg` in the list a function returns;
  the receiving goroutine is a step function that takes the message.
* `container/list` values are Lean lists; a list element handle `*list.Element`
  is the position of the element (`none` for `nil`).
-/

namespace Httpdb

/-! ## Go maps -/

/-- A Go `map[string]T`. -/
abbrev GoMap (α : Type) := String → Option α

/-- The map made by `make(map[string]T)`. -/
def GoMap.empty {α : Type} : GoMap α := fun _ => none

/-- The assignment `m[k] = v`. -/
def GoMap.set {α : Type} (m : GoMap α) (k : String) (v : α) : GoMap α :=
  fun x => if x = k then some v else m x

/-- The builtin `delete(m, k)`. -/
def GoMap.delete {α : Type} (m : GoMap α) (k : String) : GoMap α :=
  fun x => if x = k then none else m x

/-! ## entry.go -/

/-- The struct `Entry` (the embedded mutex carries no data). -/
structure Entry where
  Key : String
  Value : String
  LockId : String
deriving DecidableEq, Repr

/-- The method `(e *Entry) IsLocked`. -/
def Entry.IsLocked (e : Entry) : Bool := e.LockId != ""

/-- The method `(e *Entry) SetLockId`: the entry afterwards and the returned bool. -/
def Entry.SetLockId (e : Entry) (id : String) : Entry × Bool :=
  if e.LockId != "" then
    (e, false)
  else
    ({ e with LockId := id }, true)

/-- The method `(e *Entry) ValidLock`. -/
def Entry.ValidLock (e : Entry) (id : String) : Bool := e.LockId == id

/-- The method `(e *Entry) GetLockId`. -/
def Entry.GetLockId (e : Entry) : String := e.LockId

/-- The method `(e *Entry) SetValue`. -/
def Entry.SetValue (e : Entry) (value : String) : Entry := { e with Value := value }

/-- The method `(e *Entry) GetValue`. -/
def Entry.GetValue (e : Entry) : String := e.Value

/-- The method `(e *Entry) GetKey`. -/
def Entry.GetKey (e : Entry) : String := e.Key

/-- A JSON object whose members are strings, in the order they are written.
`encoding/json` is an external library: its output is kept as the member list
rather than as bytes. -/
abbrev Json := List (String × String)

/-- The call `json.Marshal(e)` for `*Entry`: the struct tags give `value` and
`lock_id`; the field `Key` is tagged `json:"-"` and is left out. -/
def Entry.marshal (e : Entry) : Except String Json :=
  .ok [("value", e.Value), ("lock_id", e.LockId)]

/-- The method `(e *Entry) GetJson`. -/
def Entry.GetJson (e : Entry) : Except String Json :=
  match e.marshal with
  | .error err => .error err
  | .ok j => .ok j

/-! ## atomic.go: message types -/

/-- The struct `AcquireAction`. -/
structure AcquireAction where
  Key : String
  Id : String
deriving DecidableEq, Repr

/-- The struct `WriteAction`: `Entry` is a `*Entry`, `Error` a `chan error`. -/
structure WriteAction where
  Entry : Nat
  Value : String
  Error : Nat
deriving DecidableEq, Repr

/-- The struct `BoolResponder`. -/
structure BoolResponder where
  Entry : Nat
  Param : String
  Return : Nat
deriving DecidableEq, Repr

/-- The struct `StringResponder`. -/
structure StringResponder where
  Entry : Nat
  Param : String
  Return : Nat
  Error : Nat
deriving DecidableEq, Repr

/-- The struct `ByteResponder`. -/
structure ByteResponder where
  Entry : Nat
  Return : Nat
  Error : Nat
deriving DecidableEq, Repr

/-- A message on one of the nine channels read by `startAtomics`. -/
inductive AtomicsMsg where
  | isLocked (il : BoolResponder)
  | validLock (vl : BoolResponder)
  | unsetLockId (ul : WriteAction)
  | setLockId (cl : WriteAction)
  | getLockId (gl : StringResponder)
  | getValue (gv : StringResponder)
  | setValue (sv : WriteAction)
  | getKey (gk : StringResponder)
  | getJson (gj : ByteResponder)
deriving DecidableEq, Repr

/-- A message on one of the four channels read by `startLockMinder`. -/
inductive MinderMsg where
  | acquireLock (a : WriteAction)
  | releaseLock (r : AcquireAction)
  | timeoutLock (t : AcquireAction)
  | deleteEntry (d : AcquireAction)
deriving DecidableEq, Repr

/-- One channel send: on a channel of `startAtomics`, on a channel of
`startLockMinder`, or on a per-request reply channel (`chan error`,
`chan bool`, `chan string`, `chan []byte`). An error value is `none` for `nil`
and `some text` otherwise. -/
inductive Msg where
  | atomics (m : AtomicsMsg)
  | minder (m : MinderMsg)
  | error (c : Nat) (err : Option String)
  | bool (c : Nat) (b : Bool)
  | string (c : Nat) (s : String)
  | bytes (c : Nat) (j : Json)
deriving DecidableEq, Repr

/-! ## lockstore.go, datastore.go and the package-level state -/

/-- The struct `LockStore`: `Locks map[string]struct{}`. -/
structure LockStore where
  Locks : GoMap Unit

/-- The struct `DataStore`: `Entries map[string]*Entry`. -/
structure DataStore where
  Entries : GoMap Nat

/-- The struct `AppSettings`; `int` and `time.Duration` values are integers
(only compared and assigned, never computed with). -/
structure AppSettings where
  Port : Int
  Debug : Bool
  TimeOut : Int
  AtomicBuffer : Int
deriving DecidableEq, Repr

/-- The zero value of `Config.App`, which the variable `Config` holds until
`loadConfig` runs: it is declared without an initialiser. -/
def AppSettings.zero : AppSettings :=
  { Port := 0, Debug := false, TimeOut := 0, AtomicBuffer := 0 }

/-- The package-level variables `data`, `locks` and `Config.App` of main.go,
the `Entry` cells that `*Entry` values point to, and the counters of the
model: `brk` is the next unused address, `rng` the number of `random.String`
calls made so far, `nchan` the number of reply channels made so far. -/
structure World where
  mem : Nat → Entry
  brk : Nat
  data : DataStore
  locks : LockStore
  rng : Nat
  nchan : Nat
  Config : AppSettings

/-- The state set up by `init` in main.go: both maps empty, `Config` still
zero. -/
def World.init : World :=
  { mem := fun _ => { Key := "", Value := "", LockId := "" }
    brk := 0
    data := { Entries := GoMap.empty }
    locks := { Locks := GoMap.empty }
    rng := 0
    nchan := 0
    Config := AppSettings.zero }

/-- The store `*p = e`. -/
def World.store (W : World) (p : Nat) (e : Entry) : World :=
  { W with mem := fun q => if q = p then e else W.mem q }

/-- The method `(l *LockStore) LockExists`. -/
def LockStore.LockExists (l : LockStore) (id : String) : Bool :=
  (l.Locks id).isSome

/-- The method `(l *LockStore) AddLock`: the registry afterwards and the error. -/
def LockStore.AddLock (l : LockStore) (id : String) : LockStore × Option String :=
  if (l.Locks id).isSome then
    (l, some ("Cannot add lock id '" ++ id ++ "', already exists."))
  else
    ({ Locks := l.Locks.set id () }, none)

/-- The method `(l *LockStore) DeleteLock`: the registry afterwards and the error. -/
def LockStore.DeleteLock (l : LockStore) (id : String) : LockStore × Option String :=
  if !(l.Locks id).isSome then
    (l, some ("Cannot delete lock '" ++ id ++ "', does not exist."))
  else
    ({ Locks := l.Locks.delete id }, none)

/-- The method `(d *DataStore) EntryExists`. -/
def DataStore.EntryExists (d : DataStore) (key : String) : Bool :=
  (d.Entries key).isSome

/-- The method `(d *DataStore) AddEntry` for the entry at address `entry`. -/
def AddEntry (W : World) (entry : Nat) : World × Option String :=
  if (W.data.Entries (W.mem entry).Key).isSome then
    (W, some ("Cannot add entry '" ++ (W.mem entry).Key ++ "', key already exists."))
  else
    ({ W with data := { Entries := W.data.Entries.set (W.mem entry).Key entry } }, none)

/-- The method `(d *DataStore) GetEntry`. -/
def DataStore.GetEntry (d : DataStore) (key : String) : Except String Nat :=
  match d.Entries key with
  | none => .error ("Cannot get entry '" ++ key ++ "', does not exist.")
  | some p => .ok p

/-- The method `(d *DataStore) DeleteEntry`: the state afterwards, the sends
made and the returned error. -/
def DeleteEntry (W : World) (key : String) : World × List Msg × Option String :=
  match W.data.Entries key with
  | none => (W, [], some ("Cannot delete entry '" ++ key ++ "', does not exist."))
  | some entry =>
    let W1 := { W with data := { Entries := W.data.Entries.delete key } }
    let W2 := { W1 with locks := (W1.locks.DeleteLock (W1.mem entry).GetLockId).1 }
    (W2, [Msg.minder (.deleteEntry { Key := key, Id := "" })], none)

/-- The method `(e *Entry) SetLockId` on the entry at address `e`. -/
def SetLockId (W : World) (e : Nat) (id : String) : World × Bool :=
  (W.store e ((W.mem e).SetLockId id).1, ((W.mem e).SetLockId id).2)

/-- The method `(e *Entry) SetValue` on the entry at address `e`. -/
def SetValue (W : World) (e : Nat) (value : String) : World :=
  W.store e ((W.mem e).SetValue value)

/-- The method `(e *Entry) UnsetLockId` on the entry at address `e`: the
registry loses the entry's lock id, the lock id is cleared, and a release for
the entry's key is sent on `releaseLock`. -/
def UnsetLockId (W : World) (e : Nat) : World × List Msg :=
  let W1 := { W with locks := (W.locks.DeleteLock (W.mem e).LockId).1 }
  let W2 := W1.store e { W1.mem e with LockId := "" }
  (W2, [Msg.minder (.releaseLock { Key := (W2.mem e).Key, Id := "" })])

/-! ## atomic.go: the serialization goroutine -/

/-- One turn of the `select` loop of `startAtomics` on the message read (the
`stop` case, which ends the loop, apart): the state afterwards and the sends
made. -/
def startAtomics (W : World) : AtomicsMsg → World × List Msg
  | .isLocked il => (W, [Msg.bool il.Return (W.mem il.Entry).IsLocked])
  | .validLock vl => (W, [Msg.bool vl.Return ((W.mem vl.Entry).ValidLock vl.Param)])
  | .unsetLockId ul =>
    ((UnsetLockId W ul.Entry).1, (UnsetLockId W ul.Entry).2 ++ [Msg.error ul.Error none])
  | .setLockId cl =>
    if (SetLockId W cl.Entry cl.Value).2 then
      ((SetLockId W cl.Entry cl.Value).1, [Msg.error cl.Error none])
    else
      ((SetLockId W cl.Entry cl.Value).1,
        [Msg.error cl.Error (some ("Could not set new LockId, already locked: " ++
          ((SetLockId W cl.Entry cl.Value).1.mem cl.Entry).GetKey))])
  | .getLockId gl => (W, [Msg.string gl.Return (W.mem gl.Entry).GetLockId])
  | .getValue gv => (W, [Msg.string gv.Return (W.mem gv.Entry).GetValue])
  | .setValue sv => (SetValue W sv.Entry sv.Value, [Msg.error sv.Error none])
  | .getKey gk => (W, [Msg.string gk.Return (W.mem gk.Entry).GetKey])
  | .getJson gj =>
    match (W.mem gj.Entry).GetJson with
    | .error err => (W, [Msg.error gj.Error (some err)])
    | .ok j => (W, [Msg.bytes gj.Return j])

/-! ## atomic.go: the lock minder goroutine -/

/-- The call `l.Front()` of container/list: the first element, `nil` on an
empty list. -/
def listFront (l : List WriteAction) : Option Nat :=
  if l.length = 0 then none else some 0

/-- The call `e.Next()` of container/list for the element at position `e`. -/
def listNext (l : List WriteAction) (e : Nat) : Option Nat :=
  if e + 1 < l.length then some (e + 1) else none

/-- The error sent to the waiters of a deleted entry. -/
def deletedErr : String := "Entry was deleted before lock could be acquired."

/-- The loop of the `timeoutLock` case, `for i := 0; i < locks.Len(); i++`,
with the cursor `e`. The first argument is `locks.Len() - i`: the list keeps
its length until the turn that removes an element, which leaves the loop.
The result is the table `lockers` when the loop is left, `none` when the
loop dereferences a `nil` cursor (a panic in Go). -/
def timeoutWalk (lockers : GoMap (List WriteAction)) (t : AcquireAction)
    (locks : List WriteAction) : Nat → Option Nat → Option (GoMap (List WriteAction))
  | 0, _ => some lockers
  | n + 1, e =>
    match e with
    | none => none
    | some j =>
      match locks.get? j with
      | none => none
      | some a =>
        if a.Value = t.Id then
          if (locks.eraseIdx j).length = 0 then
            some (lockers.delete t.Key)
          else
            some (lockers.set t.Key (locks.eraseIdx j))
        else
          match listNext locks j with
          | none => some lockers
          | some j1 => timeoutWalk lockers t locks n (some j1)

/-- The loop of the `deleteEntry` case with the cursor `e`; the first argument
is `locks.Len() - i`. The result is the list of sends made, `none` when the
loop dereferences a `nil` cursor. -/
def deleteWalk (locks : List WriteAction) : Nat → Option Nat → Option (List Msg)
  | 0, _ => some []
  | n + 1, e =>
    match e with
    | none => none
    | some j =>
      match locks.get? j with
      | none => none
      | some a =>
        match listNext locks j with
        | none => some [Msg.error a.Error (some deletedErr)]
        | some j1 =>
          match deleteWalk locks n (some j1) with
          | none => none
          | some out => some (Msg.error a.Error (some deletedErr) :: out)

/-- One turn of the `select` loop of `startLockMinder` on the message read
(the `stop` case apart). `lockers` is the goroutine's local table, `mem` the
entry cells (read by `a.Entry.GetKey()`). The result is the table afterwards
and the sends made, `none` when the turn panics. -/
def startLockMinder (mem : Nat → Entry) (lockers : GoMap (List WriteAction)) :
    MinderMsg → Option (GoMap (List WriteAction) × List Msg)
  | .acquireLock a =>
    match lockers (mem a.Entry).GetKey with
    | some locks => some (lockers.set (mem a.Entry).GetKey (locks ++ [a]), [])
    | none => some (lockers.set (mem a.Entry).GetKey [a], [])
  | .releaseLock r =>
    match lockers r.Key with
    | some locks =>
      match locks with
      | e :: rest =>
        if rest.length = 0 then
          some (lockers.delete r.Key, [Msg.atomics (.setLockId e)])
        else
          some (lockers.set r.Key rest, [Msg.atomics (.setLockId e)])
      | [] => some (lockers.delete r.Key, [])
    | none => some (lockers, [])
  | .timeoutLock t =>
    match lockers t.Key with
    | some locks =>
      match timeoutWalk lockers t locks locks.length (listFront locks) with
      | some lockers1 => some (lockers1, [])
      | none => none
    | none => some (lockers, [])
  | .deleteEntry d =>
    match lockers d.Key with
    | some locks =>
      match deleteWalk locks locks.length (listFront locks) with
      | some out => some (lockers.delete d.Key, out)
      | none => none
    | none => some (lockers, [])

/-- The branch of the `releaseLock` case taken on a table. -/
inductive ReleaseBranch where
  | noList
  | handoff
  | emptyList
deriving DecidableEq, Repr

/-- Which branch the `releaseLock` case takes: no list for the key, the
branch under `locks.Len() > 0`, or its `else` (commented "this shouldn't
happen"). -/
def releaseBranch (lockers : GoMap (List WriteAction)) (r : AcquireAction) : ReleaseBranch :=
  match lockers r.Key with
  | some locks => if locks.length > 0 then .handoff else .emptyList
  | none => .noList

/-! ## common.go -/

/-- The call `random.String(5)` of the external generator: `rand n` is the
string returned by the call number `n`; the call counter advances. -/
def randomString (rand : Nat → String) (W : World) : String × World :=
  (rand W.rng, { W with rng := W.rng + 1 })

/-- The loop `for locks.LockExists(newid) { newid = random.String(5) }` of
`newLockId`, run for at most `fuel` tests of the condition; `none` when the
loop is still running after them. -/
def newLockIdLoop (rand : Nat → String) : Nat → World → String → Option (String × World)
  | 0, _, _ => none
  | fuel + 1, W, newid =>
    if W.locks.LockExists newid then
      newLockIdLoop rand fuel (randomString rand W).2 (randomString rand W).1
    else
      some (newid, W)

/-- The function `newLockId`. -/
def newLockId (rand : Nat → String) (fuel : Nat) (W : World) : Option (String × World) :=
  newLockIdLoop rand fuel (randomString rand W).2 (randomString rand W).1

/-- Which case of the `select` in `AcquireLock` runs: a value arrives on the
reply channel, or the ticker fires first. -/
inductive Select where
  | recv (err : Option String)
  | tick
deriving DecidableEq, Repr

/-- The int64 value of an integer expression: two's complement wrap-around. -/
def wrap64 (x : Int) : Int :=
  (x + 9223372036854775808) % 18446744073709551616 - 9223372036854775808

/-- The argument `time.Second*Config.App.TimeOut` that the handlers pass to
`AcquireLock`: a product of two `time.Duration` (int64) values, `time.Second`
being 1000000000. -/
def acquireTimeout (Config : AppSettings) : Int :=
  wrap64 (1000000000 * Config.TimeOut)

/-- The text of the panic of `time.NewTicker` for a non-positive duration. -/
def tickerPanic : String := "non-positive interval for NewTicker"

/-- The function `AcquireLock` up to its `select`. `time.NewTicker(timeout)`
panics when `timeout` is not positive (`none`); otherwise the reply channel
and the `WriteAction` are made and the action is sent on `acquireLock`. -/
def AcquireLock.submit (W : World) (entry : Nat) (timeout : Int) (newid : String) :
    Option (World × WriteAction × List Msg) :=
  if timeout ≤ 0 then
    none
  else
    some ({ W with nchan := W.nchan + 1 },
      { Entry := entry, Value := newid, Error := W.nchan },
      [Msg.minder (.acquireLock { Entry := entry, Value := newid, Error := W.nchan })])

/-- The `select` of `AcquireLock` and its return for the waiter `r`: the
returned error and the sends made. -/
def AcquireLock.select (W : World) (r : WriteAction) : Select → Option String × List Msg
  | .recv err => (err, [])
  | .tick =>
    (some "Timed out waiting for lock acquisition.",
      [Msg.minder (.timeoutLock { Key := (W.mem r.Entry).GetKey, Id := r.Value })])

/-! ## net/http: the response writer -/

/-- An `http.ResponseWriter` as the handlers use it: `header` is the map
returned by `w.Header()`, `code` and `sent` are the status and the headers as
written by the first `WriteHeader`, `body` the values passed to `Write`. -/
structure ResponseWriter where
  header : List (String × String)
  wroteHeader : Bool
  code : Nat
  sent : List (String × String)
  body : List Json
deriving DecidableEq, Repr

/-- A response writer nothing has been written to. -/
def ResponseWriter.new : ResponseWriter :=
  { header := [], wroteHeader := false, code := 0, sent := [], body := [] }

/-- The call `w.WriteHeader(code)`: the first call fixes the status and sends
the headers as they are at that moment. -/
def ResponseWriter.WriteHeader (w : ResponseWriter) (code : Nat) : ResponseWriter :=
  if w.wroteHeader then w
  else { w with wroteHeader := true, code := code, sent := w.header }

/-- The call `w.Header().Set(key, value)`. -/
def ResponseWriter.Set (w : ResponseWriter) (key value : String) : ResponseWriter :=
  { w with header := (key, value) :: w.header.filter (fun kv => kv.1 != key) }

/-- The call `w.Write(j)`: writes the status 200 first when none was written. -/
def ResponseWriter.Write (w : ResponseWriter) (j : Json) : ResponseWriter :=
  { (w.WriteHeader 200) with body := (w.WriteHeader 200).body ++ [j] }

/-- What the `Content-Type` of a request makes `r.FormValue` do with the
body: nothing, parse it as `application/x-www-form-urlencoded`, or parse it
as `multipart/form-data`. -/
inductive BodyKind where
  | plain
  | urlencoded
  | multipart
deriving DecidableEq, Repr

/-- The parts of an `*http.Request` the handlers read. `vars` is
`mux.Vars(r)`; `query` gives the first value of each parameter of the URL
query; `kind` is the kind of body the `Content-Type` announces; `postForm`
gives the first value of each parameter net/http parses from a form body;
`body` is the result of `ioutil.ReadAll(r.Body)` on the body as received;
`rest` is the result of `ioutil.ReadAll(r.Body)` once net/http has parsed a
form body (nothing is left of a body within the form size limit). -/
structure Request where
  vars : GoMap String
  query : GoMap String
  kind : BodyKind
  postForm : GoMap String
  body : Except String String
  rest : Except String String

/-- The value returned by `r.FormValue(name)`, the first value of `r.Form[name]`
or the empty string. For a POST request net/http fills `r.Form` with the
parameters of a url-encoded body followed by those of the query, and for a
multipart body with those of the query followed by those of the body. -/
def Request.FormValue (r : Request) (name : String) : String :=
  match r.kind with
  | .plain => (r.query name).getD ""
  | .urlencoded =>
    match r.postForm name with
    | some v => v
    | none => (r.query name).getD ""
  | .multipart =>
    match r.query name with
    | some v => v
    | none => (r.postForm name).getD ""

/-- The result of `ioutil.ReadAll(r.Body)` after a call of `r.FormValue`: the
call has parsed, and so read, a form body. -/
def Request.afterFormValue (r : Request) : Except String String :=
  match r.kind with
  | .plain => r.body
  | .urlencoded => r.rest
  | .multipart => r.rest

/-! ## handlers.go -/

/-- A handler suspended in the `select` of `AcquireLock`: the waiter it
submitted, its response writer and the request body it has read. -/
structure Waiting where
  r : WriteAction
  w : ResponseWriter
  bytes : String
deriving DecidableEq, Repr

/-- How far a handler ran: to its end, to the `select` of `AcquireLock`, or
to a panic (net/http recovers it and sends no response). -/
inductive Progress where
  | done (w : ResponseWriter)
  | waiting (s : Waiting)
  | panic (text : String)
deriving DecidableEq, Repr

/-- The handler `updateVal`. The body is read after `r.FormValue("release")`
has run. The per-entry mutex is taken and released within the call and is not
modelled. -/
def updateVal (W : World) (w : ResponseWriter) (r : Request) :
    World × ResponseWriter × List Msg :=
  let W0 := { W with rng := W.rng + 1 }
  match r.vars "key" with
  | none => (W0, w.WriteHeader 400, [])
  | some key =>
    match W0.data.GetEntry key with
    | .error _ => (W0, w.WriteHeader 404, [])
    | .ok entry =>
      match r.vars "lock_id" with
      | none => (W0, w.WriteHeader 400, [])
      | some lockid =>
        if r.FormValue "release" != "true" && (r.FormValue "release" != "" &&
            r.FormValue "release" != "false") then
          (W0, w.WriteHeader 400, [])
        else if !(W0.mem entry).ValidLock lockid then
          (W0, w.WriteHeader 401, [])
        else
          match r.afterFormValue with
          | .error _ => (W0, w.WriteHeader 500, [])
          | .ok bytes =>
            if r.FormValue "release" == "true" then
              ((UnsetLockId (SetValue W0 entry bytes) entry).1, w.WriteHeader 204,
                (UnsetLockId (SetValue W0 entry bytes) entry).2)
            else
              (SetValue W0 entry bytes, w.WriteHeader 204, [])

/-- The call `json.Marshal(map[string]string{"lock_id": newid})`. -/
def marshalLockId (newid : String) : Except String Json :=
  .ok [("lock_id", newid)]

/-- The part of `putVal` after the lock was taken for `newid` (by `SetLockId`
or by `AcquireLock` returning `nil`): `SetValue`, then the answer 200 with
the token. -/
def putValFinish (W : World) (w : ResponseWriter) (entry : Nat) (newid bytes : String) :
    World × ResponseWriter :=
  match marshalLockId newid with
  | .error _ => (SetValue W entry bytes, w.WriteHeader 500)
  | .ok j =>
    (SetValue W entry bytes,
      ((w.WriteHeader 200).Set "Content-Type" "application/json").Write j)

/-- The handler `putVal` up to the `select` of `AcquireLock`, or to its end
when it does not wait, or to the panic of `time.NewTicker` in `AcquireLock`.
`none` when `newLockId` is still looping after `fuel` tests of its
condition. -/
def putVal (rand : Nat → String) (fuel : Nat) (W : World) (w : ResponseWriter) (r : Request) :
    Option (World × List Msg × Progress) :=
  let W0 := { W with rng := W.rng + 1 }
  match r.vars "key" with
  | none => some (W0, [], .done (w.WriteHeader 400))
  | some key =>
    let We : World × Nat :=
      match W0.data.GetEntry key with
      | .ok entry => (W0, entry)
      | .error _ =>
        ((AddEntry ({ W0 with brk := W0.brk + 1 }.store W0.brk
            { Key := key, Value := "", LockId := "" }) W0.brk).1, W0.brk)
    match r.body with
    | .error _ => some (We.1, [], .done (w.WriteHeader 500))
    | .ok bytes =>
      match newLockId rand fuel We.1 with
      | none => none
      | some (newid, W1) =>
        if (SetLockId W1 We.2 newid).2 then
          some ((putValFinish (SetLockId W1 We.2 newid).1 w We.2 newid bytes).1, [],
            .done (putValFinish (SetLockId W1 We.2 newid).1 w We.2 newid bytes).2)
        else
          match AcquireLock.submit (SetLockId W1 We.2 newid).1 We.2
              (acquireTimeout (SetLockId W1 We.2 newid).1.Config) newid with
          | none => some ((SetLockId W1 We.2 newid).1, [], .panic tickerPanic)
          | some (W2, a, out) => some (W2, out, .waiting { r := a, w := w, bytes := bytes })

/-- The rest of `putVal` for a handler suspended in `AcquireLock`, when the
`select` runs the case `sel`: the state afterwards, the sends made and the
response (408 when `AcquireLock` returns an error). -/
def putValResume (W : World) (s : Waiting) (sel : Select) : World × List Msg × ResponseWriter :=
  match (AcquireLock.select W s.r sel).1 with
  | some _ => (W, (AcquireLock.select W s.r sel).2, s.w.WriteHeader 408)
  | none =>
    ((putValFinish W s.w s.r.Entry s.r.Value s.bytes).1, (AcquireLock.select W s.r sel).2,
      (putValFinish W s.w s.r.Entry s.r.Value s.bytes).2)

/-- The part of `reserveKey` after the lock was taken: `GetJson` and the
answer. -/
def reserveKeyFinish (W : World) (w : ResponseWriter) (entry : Nat) : ResponseWriter :=
  match (W.mem entry).GetJson with
  | .error _ => w.WriteHeader 500
  | .ok j => ((w.WriteHeader 200).Set "Content-Type" "application/json").Write j

/-- The handler `reserveKey` up to the `select` of `AcquireLock`, or to its
end when it does not wait, or to the panic of `time.NewTicker` in
`AcquireLock`. `none` when `newLockId` is still looping after `fuel` tests of
its condition. -/
def reserveKey (rand : Nat → String) (fuel : Nat) (W : World) (w : ResponseWriter)
    (r : Request) : Option (World × List Msg × Progress) :=
  let W0 := { W with rng := W.rng + 1 }
  match r.vars "key" with
  | none => some (W0, [], .done (w.WriteHeader 400))
  | some key =>
    match W0.data.GetEntry key with
    | .error _ => some (W0, [], .done (w.WriteHeader 404))
    | .ok entry =>
      match newLockId rand fuel W0 with
      | none => none
      | some (newid, W1) =>
        if (SetLockId W1 entry newid).2 then
          some ((SetLockId W1 entry newid).1, [],
            .done (reserveKeyFinish (SetLockId W1 entry newid).1 w entry))
        else
          match AcquireLock.submit (SetLockId W1 entry newid).1 entry
              (acquireTimeout (SetLockId W1 entry newid).1.Config) newid with
          | none => some ((SetLockId W1 entry newid).1, [], .panic tickerPanic)
          | some (W2, a, out) => some (W2, out, .waiting { r := a, w := w, bytes := "" })

/-- The rest of `reserveKey` for a handler suspended in `AcquireLock`, when
the `select` runs the case `sel`. -/
def reserveKeyResume (W : World) (s : Waiting) (sel : Select) :
    World × List Msg × ResponseWriter :=
  match (AcquireLock.select W s.r sel).1 with
  | some _ => (W, (AcquireLock.select W s.r sel).2, s.w.WriteHeader 408)
  | none => (W, (AcquireLock.select W s.r sel).2, reserveKeyFinish W s.w s.r.Entry)

/-! ## Runs of the lock minder -/

/-- The lock minder reading a sequence of messages, each with the entry cells
as they are at that turn: the table afterwards and the sends of each turn;
`none` when a turn panics. -/
def minderRun : GoMap (List WriteAction) → List ((Nat → Entry) × MinderMsg) →
    Option (GoMap (List WriteAction) × List (List Msg))
  | lockers, [] => some (lockers, [])
  | lockers, (mem, m) :: rest =>
    match startLockMinder mem lockers m with
    | none => none
    | some (lockers1, out) =>
      match minderRun lockers1 rest with
      | none => none
      | some (lockers2, outs) => some (lockers2, out :: outs)

/-- The key a message of the lock minder is about: the key of the waiter's
entry for an acquire, the field `Key` for the other three. -/
def MinderMsg.key (mem : Nat → Entry) : MinderMsg → String
  | .acquireLock a => (mem a.Entry).GetKey
  | .releaseLock r => r.Key
  | .timeoutLock t => t.Key
  | .deleteEntry d => d.Key

/-- Whether the message read at a turn is about the key `k`. -/
def aboutKey (k : String) (x : (Nat → Entry) × MinderMsg) : Bool :=
  x.2.key x.1 == k

/-! ## main.go: configuration and start-up -/

/-- The function `loadConfig` after `smallcfg.Load` has filled `Config`:
`loaded` is `Config.App` as the loader leaves it, the result is `Config.App`
when `loadConfig` returns. -/
def loadConfig (loaded : AppSettings) : AppSettings :=
  let c1 := if loaded.Port ≤ 0 ∨ loaded.Port ≥ 65534 then { loaded with Port := 9000 } else loaded
  let c2 := if c1.TimeOut = 0 then { c1 with TimeOut := 5 } else c1
  if c2.AtomicBuffer < 1 then { c2 with AtomicBuffer := 1 } else c2

/-- The capacities of the thirteen package-level channels of atomic.go. -/
structure Channels where
  isLocked : Int
  validLock : Int
  unsetLockId : Int
  setLockId : Int
  getLockId : Int
  getValue : Int
  setValue : Int
  getKey : Int
  getJson : Int
  acquireLock : Int
  releaseLock : Int
  timeoutLock : Int
  deleteEntry : Int
deriving DecidableEq, Repr

/-- The `var` block of atomic.go: each channel is made by
`make(chan T, Config.App.AtomicBuffer)` with the value `Config` has when the
block is evaluated. -/
def makeChannels (Config : AppSettings) : Channels :=
  { isLocked := Config.AtomicBuffer
    validLock := Config.AtomicBuffer
    unsetLockId := Config.AtomicBuffer
    setLockId := Config.AtomicBuffer
    getLockId := Config.AtomicBuffer
    getValue := Config.AtomicBuffer
    setValue := Config.AtomicBuffer
    getKey := Config.AtomicBuffer
    getJson := Config.AtomicBuffer
    acquireLock := Config.AtomicBuffer
    releaseLock := Config.AtomicBuffer
    timeoutLock := Config.AtomicBuffer
    deleteEntry := Config.AtomicBuffer }

/-- The package-level variables `Config` and the channels. -/
structure Package where
  Config : AppSettings
  chans : Channels
deriving DecidableEq, Repr

/-- Package initialisation, which Go completes before `main` starts: `Config`
has no initialiser and is zero; the `var` block of atomic.go is then
evaluated. The function `init` of main.go assigns neither. -/
def packageInit : Package :=
  { Config := AppSettings.zero, chans := makeChannels AppSettings.zero }

/-- The function `main` up to `logger.Info("Starting Goroutines.")`: the call
`loadConfig()`, in which `smallcfg.Load` turns `Config.App` into
`load Config.App`. No statement of `main` or `loadConfig` assigns a channel. -/
def mainLoadConfig (load : AppSettings → AppSettings) (P : Package) : Package :=
  { P with Config := loadConfig (load P.Config) }

/-! ## Concrete requests and scenarios -/

/-- A request whose route gave `key`, with no query, no `Content-Type` and
the body `body`. -/
def putRequest (key body : String) : Request :=
  { vars := (GoMap.empty : GoMap String).set "key" key
    query := GoMap.empty
    kind := .plain
    postForm := GoMap.empty
    body := .ok body
    rest := .ok "" }

/-- A request to `/values/{key}/{lock_id}?release=rel` with no `Content-Type`
and the body `body`. -/
def postRequest (key lockid rel body : String) : Request :=
  { vars := ((GoMap.empty : GoMap String).set "key" key).set "lock_id" lockid
    query := (GoMap.empty : GoMap String).set "release" rel
    kind := .plain
    postForm := GoMap.empty
    body := .ok body
    rest := .ok "" }

/-- A request to `/values/k/ABCDE` with no query, the header
`Content-Type: application/x-www-form-urlencoded` and the body
`release=true`: net/http parses the one parameter `release` from the body and
leaves nothing of it to read. -/
def formRequest : Request :=
  { vars := ((GoMap.empty : GoMap String).set "key" "k").set "lock_id" "ABCDE"
    query := GoMap.empty
    kind := .urlencoded
    postForm := (GoMap.empty : GoMap String).set "release" "true"
    body := .ok "release=true"
    rest := .ok "" }

/-- A generator that returns `AAAAA` at every call. -/
def constRand : Nat → String := fun _ => "AAAAA"

/-- The state of `init` after `data.AddEntry(&Entry{Key: "k"})`: one unlocked
entry, at address 0, and an empty token registry. -/
def oneEntry : World :=
  (AddEntry ({ World.init with brk := 1 }.store 0 { Key := "k", Value := "", LockId := "" }) 0).1

/-- The state after `PUT /values/a` with body `x` on the state of `init`, with
the generator `constRand`, and the progress of the handler. -/
def firstPut : Option (World × Progress) :=
  match putVal constRand 1 World.init ResponseWriter.new (putRequest "a" "x") with
  | none => none
  | some (W1, _, p1) => some (W1, p1)

/-- The state after a second request, `PUT /values/b` with body `y`, and the
progress of that handler. -/
def secondPut : Option (World × Progress) :=
  match firstPut with
  | none => none
  | some (W1, _) =>
    match putVal constRand 1 W1 ResponseWriter.new (putRequest "b" "y") with
    | none => none
    | some (W2, _, p2) => some (W2, p2)

/-- The token in the body of a finished response, when there is one. -/
def Progress.token : Progress → Option String
  | .done w => (w.body.head?.bind fun j => j.lookup "lock_id")
  | .waiting _ => none
  | .panic _ => none

/-- The status of a finished response. -/
def Progress.code : Progress → Option Nat
  | .done w => some w.code
  | .waiting _ => none
  | .panic _ => none

/-- A table with three waiters queued for `k` (tokens `t1`, `t2`, `t3`, reply
channels 1, 2, 3, all for the entry at address 0) and one waiter queued for
`j`. -/
def sampleLockers : GoMap (List WriteAction) :=
  ((GoMap.empty : GoMap (List WriteAction)).set "k"
    [{ Entry := 0, Value := "t1", Error := 1 }, { Entry := 0, Value := "t2", Error := 2 },
     { Entry := 0, Value := "t3", Error := 3 }]).set "j"
    [{ Entry := 1, Value := "t4", Error := 4 }]

/-- Entry cells with the key `k` at address 0 and the key `j` elsewhere. -/
def twoKeys : Nat → Entry := fun p =>
  if p = 0 then { Key := "k", Value := "", LockId := "ABCDE" }
  else { Key := "j", Value := "", LockId := "FGHIJ" }

/-- Two waiters for the key `k`, in the order they are submitted. -/
def fifoAcquires : List ((Nat → Entry) × WriteAction) :=
  [(twoKeys, { Entry := 0, Value := "t1", Error := 1 }),
   (twoKeys, { Entry := 0, Value := "t2", Error := 2 })]

/-- Two releases for the key `k`. -/
def fifoReleases : List ((Nat → Entry) × AcquireAction) :=
  [(twoKeys, { Key := "k", Id := "" }), (twoKeys, { Key := "k", Id := "" })]

/-- The two acquires and the two releases for `k`, with an acquire and a
release for the key `j` in between. -/
def fifoMsgs : List ((Nat → Entry) × MinderMsg) :=
  [(twoKeys, .acquireLock { Entry := 0, Value := "t1", Error := 1 }),
   (twoKeys, .acquireLock { Entry := 1, Value := "t9", Error := 9 }),
   (twoKeys, .acquireLock { Entry := 0, Value := "t2", Error := 2 }),
   (twoKeys, .releaseLock { Key := "j", Id := "" }),
   (twoKeys, .releaseLock { Key := "k", Id := "" }),
   (twoKeys, .releaseLock { Key := "k", Id := "" })]

/-- The entry `k` of `oneEntry` locked under `ABCDE`. -/
def lockedEntry : World := (SetLockId oneEntry 0 "ABCDE").1

/-- The entry `k` locked under `ABCDE` with the value `old`, when `loadConfig`
has run on a configuration that sets nothing (the timeout is 5). -/
def lockedOld : World :=
  { (SetValue lockedEntry 0 "old") with Config := loadConfig AppSettings.zero }

/-- A table with one waiter queued for `k`, of an earlier request: token
`AAAAA`, reply channel 9. -/
def earlierWaiter : GoMap (List WriteAction) :=
  (GoMap.empty : GoMap (List WriteAction)).set "k" [{ Entry := 0, Value := "AAAAA", Error := 9 }]

/-- A table with one waiter for `k`: token `UUUUU`, reply channel 5. -/
def oneWaiter : GoMap (List WriteAction) :=
  (GoMap.empty : GoMap (List WriteAction)).set "k" [{ Entry := 0, Value := "UUUUU", Error := 5 }]

/-- A `putVal` with body `new` suspended as that waiter. -/
def waitingPut : Waiting :=
  { r := { Entry := 0, Value := "UUUUU", Error := 5 }, w := ResponseWriter.new, bytes := "new" }

/-- The state after `POST /reservations/k` on the state with the one unlocked
entry `k`, with the generator `constRand`, and the progress of the handler. -/
def firstReserve : Option (World × Progress) :=
  match reserveKey constRand 1 oneEntry ResponseWriter.new (putRequest "k" "") with
  | none => none
  | some (W1, _, p1) => some (W1, p1)

/-- The headers sent with a finished response. -/
def Progress.sent : Progress → Option (List (String × String))
  | .done w => some w.sent
  | .waiting _ => none
  | .panic _ => none

/-- The header map of a finished response as the handler leaves it. -/
def Progress.header : Progress → Option (List (String × String))
  | .done w => some w.header
  | .waiting _ => none
  | .panic _ => none

/-! ## Theorems -/

/-- C1: `Entry.SetLockId` is a compare-and-swap. It returns true exactly when
the lock id was empty; the lock id afterwards is `id` in that case and the
old one otherwise; key and value are kept. The `setLockId` case of
`startAtomics` stores the entry `SetLockId` leaves and replies `nil` exactly
when `SetLockId` returned true, and the "already locked" error otherwise. -/
theorem C1_SetLockId_compare_and_swap (e : Entry) (id : String) (W : World) (cl : WriteAction) :
    ((e.SetLockId id).2 = true ↔ e.LockId = "") ∧
    (e.SetLockId id).1.LockId = (if e.LockId = "" then id else e.LockId) ∧
    (e.SetLockId id).1.Key = e.Key ∧
    (e.SetLockId id).1.Value = e.Value ∧
    (startAtomics W (.setLockId cl)).1 =
      W.store cl.Entry ((W.mem cl.Entry).SetLockId cl.Value).1 ∧
    (startAtomics W (.setLockId cl)).2 =
      [Msg.error cl.Error
        (if ((W.mem cl.Entry).SetLockId cl.Value).2 = true then none
         else some ("Could not set new LockId, already locked: " ++ (W.mem cl.Entry).Key))] := by
  refine ⟨?_, ?_, ?_, ?_, ?_, ?_⟩
  · by_cases h : e.LockId = "" <;> simp [Entry.SetLockId, h]
  · by_cases h : e.LockId = "" <;> simp [Entry.SetLockId, h]
  · by_cases h : e.LockId = "" <;> simp [Entry.SetLockId, h]
  · by_cases h : e.LockId = "" <;> simp [Entry.SetLockId, h]
  · by_cases h : (W.mem cl.Entry).LockId = "" <;>
      simp [startAtomics, SetLockId, Entry.SetLockId, h]
  · by_cases h : (W.mem cl.Entry).LockId = "" <;>
      simp [startAtomics, SetLockId, Entry.SetLockId, World.store, Entry.GetKey, h]

/-- C2: on the state with one unlocked entry `k` and an empty registry,
`SetLockId("ABCDE")` returns true and makes `ABCDE` the lock id, directly and
through the `setLockId` case of `startAtomics` (which replies `nil`), and in
both cases `LockExists("ABCDE")` is false afterwards: the token is not added
to the registry. -/
theorem C2_SetLockId_does_not_register :
    (SetLockId oneEntry 0 "ABCDE").2 = true ∧
    ((SetLockId oneEntry 0 "ABCDE").1.mem 0).LockId = "ABCDE" ∧
    (SetLockId oneEntry 0 "ABCDE").1.locks.LockExists "ABCDE" = false ∧
    (startAtomics oneEntry (.setLockId { Entry := 0, Value := "ABCDE", Error := 7 })).2 =
      [Msg.error 7 none] ∧
    (startAtomics oneEntry
      (.setLockId { Entry := 0, Value := "ABCDE", Error := 7 })).1.locks.LockExists "ABCDE" =
      false := by
  decide

/-- C3: with a generator that returns `AAAAA` at every call, `PUT /values/a`
and then `PUT /values/b` on the state of `init` both answer 200 with the token
`AAAAA`; afterwards the store holds two distinct entries, `a` at address 0 and
`b` at address 1, both with lock id `AAAAA`. In the state between the two
requests, where `a` is locked under `AAAAA`, `newLockId` returns `AAAAA`. -/
theorem C3_two_entries_share_a_token :
    (firstPut.map fun x => (x.1.data.Entries "a", (x.1.mem 0).LockId, x.2.code, x.2.token)) =
      some (some 0, "AAAAA", some 200, some "AAAAA") ∧
    (firstPut.bind fun x => (newLockId constRand 1 x.1).map fun y => y.1) = some "AAAAA" ∧
    (secondPut.map fun x => (x.1.data.Entries "a", x.1.data.Entries "b")) =
      some (some 0, some 1) ∧
    (secondPut.map fun x => ((x.1.mem 0).LockId, (x.1.mem 1).LockId, x.2.code, x.2.token)) =
      some ("AAAAA", "AAAAA", some 200, some "AAAAA") := by
  decide

/-- C9: after `UnsetLockId` on the entry at `e` its lock id is empty and its
key and value are as before; every other entry is as before; `LockExists` is
false for the lock id the entry had and answers as before for every other
token; the sends made are exactly one release carrying the entry's key. No
assumption is made on the entry being locked. -/
theorem C9_UnsetLockId_postcondition (W : World) (e : Nat) :
    ((UnsetLockId W e).1.mem e).LockId = "" ∧
    ((UnsetLockId W e).1.mem e).Key = (W.mem e).Key ∧
    ((UnsetLockId W e).1.mem e).Value = (W.mem e).Value ∧
    (∀ q, q ≠ e → (UnsetLockId W e).1.mem q = W.mem q) ∧
    (UnsetLockId W e).1.locks.LockExists (W.mem e).LockId = false ∧
    (∀ id, id ≠ (W.mem e).LockId →
      (UnsetLockId W e).1.locks.LockExists id = W.locks.LockExists id) ∧
    (UnsetLockId W e).1.data.Entries = W.data.Entries ∧
    (UnsetLockId W e).2 = [Msg.minder (.releaseLock { Key := (W.mem e).Key, Id := "" })] := by
  refine ⟨?_, ?_, ?_, ?_, ?_, ?_, ?_, ?_⟩
  · simp [UnsetLockId, World.store]
  · simp [UnsetLockId, World.store]
  · simp [UnsetLockId, World.store]
  · intro q hq
    simp [UnsetLockId, World.store, hq]
  · cases h : W.locks.Locks (W.mem e).LockId <;>
      simp [UnsetLockId, World.store, LockStore.DeleteLock, LockStore.LockExists, GoMap.delete, h]
  · intro id hid
    cases h : W.locks.Locks (W.mem e).LockId <;>
      simp [UnsetLockId, World.store, LockStore.DeleteLock, LockStore.LockExists, GoMap.delete,
        h, hid]
  · simp [UnsetLockId, World.store]
  · simp [UnsetLockId, World.store]

/-- C10: `updateVal` on an existing entry with a lock id different from the
entry's (the entry locked or not) and a release value among the empty string,
`true` and `false` answers 401, writes no body, leaves every entry, the store
and the registry as they were and sends nothing. -/
theorem C10_updateVal_wrong_lock_id (W : World) (w : ResponseWriter) (r : Request)
    (key lockid : String) (entry : Nat)
    (hkey : r.vars "key" = some key) (hlock : r.vars "lock_id" = some lockid)
    (hent : W.data.Entries key = some entry)
    (hne : lockid ≠ (W.mem entry).LockId)
    (hrel : r.FormValue "release" = "" ∨ r.FormValue "release" = "true" ∨
      r.FormValue "release" = "false")
    (hw : w.wroteHeader = false) :
    (updateVal W w r).2.1.code = 401 ∧
    (updateVal W w r).2.1.body = w.body ∧
    (updateVal W w r).1.mem = W.mem ∧
    (updateVal W w r).1.data.Entries = W.data.Entries ∧
    (updateVal W w r).1.locks.Locks = W.locks.Locks ∧
    (updateVal W w r).2.2 = [] := by
  have hv : (W.mem entry).ValidLock lockid = false := by
    simp only [Entry.ValidLock, beq_eq_false_iff_ne, ne_eq]
    exact fun h => hne h.symm
  rcases hrel with h | h | h <;>
    simp [updateVal, hkey, hlock, DataStore.GetEntry, hent, h, hv,
      ResponseWriter.WriteHeader, hw]

/-- C10 at a concrete input: the entry `k` locked under `ABCDE`, the request
`POST /values/k/WRONG?release=true`. -/
theorem C10_updateVal_wrong_lock_id_witness :
    (updateVal (SetLockId oneEntry 0 "ABCDE").1 ResponseWriter.new
        (postRequest "k" "WRONG" "true" "x")).2.1.code = 401 ∧
    ((updateVal (SetLockId oneEntry 0 "ABCDE").1 ResponseWriter.new
        (postRequest "k" "WRONG" "true" "x")).1.mem 0).LockId = "ABCDE" ∧
    (updateVal (SetLockId oneEntry 0 "ABCDE").1 ResponseWriter.new
        (postRequest "k" "WRONG" "true" "x")).2.2 = [] := by
  have h := C10_updateVal_wrong_lock_id (SetLockId oneEntry 0 "ABCDE").1 ResponseWriter.new
    (postRequest "k" "WRONG" "true" "x") "k" "WRONG" 0 (by decide) (by decide) (by decide)
    (by decide) (by decide) (by decide)
  exact ⟨h.1, by rw [h.2.2.1]; decide, h.2.2.2.2.2⟩

/-! ### The walks of the lock minder -/

theorem listNext_append (pre : List WriteAction) (a : WriteAction) (rest : List WriteAction) :
    listNext (pre ++ a :: rest) pre.length =
      if rest = [] then none else some (pre.length + 1) := by
  cases rest <;> simp [listNext]

theorem get?_append_cons (pre : List WriteAction) (a : WriteAction) (rest : List WriteAction) :
    (pre ++ a :: rest).get? pre.length = some a := by
  induction pre with
  | nil => rfl
  | cons b pre ih => simpa using ih

theorem eraseIdx_append_cons (pre : List WriteAction) (a : WriteAction)
    (rest : List WriteAction) : (pre ++ a :: rest).eraseIdx pre.length = pre ++ rest := by
  induction pre with
  | nil => simp
  | cons b pre ih => simpa using ih

theorem timeoutWalk_no_match (lockers : GoMap (List WriteAction)) (t : AcquireAction) :
    ∀ (suf pre : List WriteAction) (n : Nat), suf ≠ [] → suf.length ≤ n →
      (∀ b ∈ suf, b.Value ≠ t.Id) →
      timeoutWalk lockers t (pre ++ suf) n (some pre.length) = some lockers := by
  intro suf
  induction suf with
  | nil => intro pre n h; exact absurd rfl h
  | cons a rest ih =>
    intro pre n _ hn hall
    cases n with
    | zero => simp at hn
    | succ m =>
      have ha : a.Value ≠ t.Id := hall a (by simp)
      rw [timeoutWalk]
      simp only [get?_append_cons, listNext_append, ha, if_false]
      by_cases hr : rest = []
      · simp [hr]
      · simp only [hr, if_false]
        have h := ih (pre ++ [a]) m hr (by simpa using hn)
          (fun b hb => hall b (by simp [hb]))
        simpa using h

theorem timeoutWalk_match (lockers : GoMap (List WriteAction)) (t : AcquireAction)
    (a : WriteAction) (l2 : List WriteAction) (ha : a.Value = t.Id) :
    ∀ (l1 pre : List WriteAction) (n : Nat), l1.length + 1 ≤ n →
      (∀ b ∈ l1, b.Value ≠ t.Id) →
      timeoutWalk lockers t (pre ++ (l1 ++ a :: l2)) n (some pre.length) =
        some (if (pre ++ (l1 ++ l2)).length = 0 then lockers.delete t.Key
              else lockers.set t.Key (pre ++ (l1 ++ l2))) := by
  intro l1
  induction l1 with
  | nil =>
    intro pre n hn _
    cases n with
    | zero => simp at hn
    | succ m =>
      rw [timeoutWalk]
      simp only [List.nil_append, get?_append_cons, ha, if_true, eraseIdx_append_cons]
      split <;> rfl
  | cons b l1 ih =>
    intro pre n hn hall
    cases n with
    | zero => simp at hn
    | succ m =>
      have hb : b.Value ≠ t.Id := hall b (by simp)
      rw [timeoutWalk]
      simp only [List.cons_append, get?_append_cons, listNext_append, hb, if_false]
      have hne : l1 ++ a :: l2 ≠ [] := by simp
      simp only [hne, if_false]
      have h := ih (pre ++ [b]) m (by simpa using hn) (fun c hc => hall c (by simp [hc]))
      simpa using h

theorem deleteWalk_all : ∀ (suf pre : List WriteAction) (n : Nat), suf ≠ [] → suf.length ≤ n →
    deleteWalk (pre ++ suf) n (some pre.length) =
      some (suf.map fun a => Msg.error a.Error (some deletedErr)) := by
  intro suf
  induction suf with
  | nil => intro pre n h; exact absurd rfl h
  | cons a rest ih =>
    intro pre n _ hn
    cases n with
    | zero => simp at hn
    | succ m =>
      rw [deleteWalk]
      simp only [get?_append_cons, listNext_append]
      by_cases hr : rest = []
      · simp [hr]
      · simp only [hr, if_false]
        have h := ih (pre ++ [a]) m hr (by simpa using hn)
        simp only [List.append_assoc, List.singleton_append, List.length_append,
          List.length_singleton] at h
        simp [h]

/-! ### Single turns of the lock minder -/

theorem timeout_turn_none (mem : Nat → Entry) (lockers : GoMap (List WriteAction))
    (t : AcquireAction) (h : lockers t.Key = none) :
    startLockMinder mem lockers (.timeoutLock t) = some (lockers, []) := by
  simp [startLockMinder, h]

theorem timeout_turn_no_match (mem : Nat → Entry) (lockers : GoMap (List WriteAction))
    (t : AcquireAction) (q : List WriteAction) (h : lockers t.Key = some q)
    (hall : ∀ b ∈ q, b.Value ≠ t.Id) :
    startLockMinder mem lockers (.timeoutLock t) = some (lockers, []) := by
  by_cases hq : q = []
  · subst hq
    simp [startLockMinder, h, timeoutWalk]
  · have hw := timeoutWalk_no_match lockers t q [] q.length hq (Nat.le_refl _) hall
    have hf : listFront q = some 0 := by
      cases q with
      | nil => exact absurd rfl hq
      | cons a rest => simp [listFront]
    simp only [List.nil_append, List.length_nil] at hw
    simp [startLockMinder, h, hf, hw]

theorem timeout_turn_match (mem : Nat → Entry) (lockers : GoMap (List WriteAction))
    (t : AcquireAction) (l1 : List WriteAction) (a : WriteAction) (l2 : List WriteAction)
    (h : lockers t.Key = some (l1 ++ a :: l2)) (hall : ∀ b ∈ l1, b.Value ≠ t.Id)
    (ha : a.Value = t.Id) :
    startLockMinder mem lockers (.timeoutLock t) =
      some (if l1 ++ l2 = [] then lockers.delete t.Key else lockers.set t.Key (l1 ++ l2),
        []) := by
  have hw := timeoutWalk_match lockers t a l2 ha l1 [] (l1 ++ a :: l2).length (by simp) hall
  have hf : listFront (l1 ++ a :: l2) = some 0 := by simp [listFront]
  simp only [List.nil_append, List.length_nil] at hw
  simp only [startLockMinder, h, hf, hw]
  by_cases hl : l1 ++ l2 = []
  · rw [if_pos hl, if_pos (by rw [hl]; rfl)]
  · rw [if_neg hl, if_neg (fun h0 => hl (List.length_eq_zero.mp h0))]

theorem acquire_turn_none (mem : Nat → Entry) (lockers : GoMap (List WriteAction))
    (a : WriteAction) (h : lockers (mem a.Entry).GetKey = none) :
    startLockMinder mem lockers (.acquireLock a) =
      some (lockers.set (mem a.Entry).GetKey [a], []) := by
  simp [startLockMinder, h]

theorem acquire_turn_some (mem : Nat → Entry) (lockers : GoMap (List WriteAction))
    (a : WriteAction) (locks : List WriteAction)
    (h : lockers (mem a.Entry).GetKey = some locks) :
    startLockMinder mem lockers (.acquireLock a) =
      some (lockers.set (mem a.Entry).GetKey (locks ++ [a]), []) := by
  simp [startLockMinder, h]

theorem release_turn_none (mem : Nat → Entry) (lockers : GoMap (List WriteAction))
    (r : AcquireAction) (h : lockers r.Key = none) :
    startLockMinder mem lockers (.releaseLock r) = some (lockers, []) := by
  simp [startLockMinder, h]

theorem release_turn_nil (mem : Nat → Entry) (lockers : GoMap (List WriteAction))
    (r : AcquireAction) (h : lockers r.Key = some []) :
    startLockMinder mem lockers (.releaseLock r) = some (lockers.delete r.Key, []) := by
  simp [startLockMinder, h]

theorem release_turn_cons (mem : Nat → Entry) (lockers : GoMap (List WriteAction))
    (r : AcquireAction) (e : WriteAction) (rest : List WriteAction)
    (h : lockers r.Key = some (e :: rest)) :
    startLockMinder mem lockers (.releaseLock r) =
      some (if rest = [] then lockers.delete r.Key else lockers.set r.Key rest,
        [Msg.atomics (.setLockId e)]) := by
  by_cases hr : rest = []
  · simp [startLockMinder, h, hr]
  · have hl : rest.length ≠ 0 := fun h0 => hr (List.length_eq_zero.mp h0)
    simp only [startLockMinder, h]
    rw [if_neg hl, if_neg hr]

theorem first_match_split (id : String) (q : List WriteAction)
    (h : ∃ b ∈ q, b.Value = id) :
    ∃ l1 a l2, q = l1 ++ a :: l2 ∧ (∀ b ∈ l1, b.Value ≠ id) ∧ a.Value = id := by
  induction q with
  | nil => simp at h
  | cons c q ih =>
    by_cases hc : c.Value = id
    · exact ⟨[], c, q, rfl, by simp, hc⟩
    · have h1 : ∃ b ∈ q, b.Value = id := by
        obtain ⟨b, hb, hbv⟩ := h
        rcases List.mem_cons.mp hb with rfl | hb
        · exact absurd hbv hc
        · exact ⟨b, hb, hbv⟩
      obtain ⟨l1, a, l2, hq, hall, ha⟩ := ih h1
      refine ⟨c :: l1, a, l2, by simp [hq], ?_, ha⟩
      intro b hb
      rcases List.mem_cons.mp hb with rfl | hb
      · exact hc
      · exact hall b hb

theorem delete_turn_some (mem : Nat → Entry) (lockers : GoMap (List WriteAction))
    (d : AcquireAction) (q : List WriteAction) (h : lockers d.Key = some q) :
    startLockMinder mem lockers (.deleteEntry d) =
      some (lockers.delete d.Key, q.map fun a => Msg.error a.Error (some deletedErr)) := by
  by_cases hq : q = []
  · subst hq
    simp [startLockMinder, h, deleteWalk]
  · have hw := deleteWalk_all q [] q.length hq (Nat.le_refl _)
    have hf : listFront q = some 0 := by
      cases q with
      | nil => exact absurd rfl hq
      | cons a rest => simp [listFront]
    simp only [List.nil_append, List.length_nil] at hw
    simp [startLockMinder, h, hf, hw]

theorem delete_turn_none (mem : Nat → Entry) (lockers : GoMap (List WriteAction))
    (d : AcquireAction) (h : lockers d.Key = none) :
    startLockMinder mem lockers (.deleteEntry d) = some (lockers, []) := by
  simp [startLockMinder, h]

/-- C6: the `timeoutLock` turn of the lock minder never panics and sends
nothing. Queues of other keys are unchanged. With no queue for the key, or
with no waiter carrying the token, the whole table is unchanged. When the
queue is `l1 ++ a :: l2` with `a` the first waiter carrying the token, the
key maps to `l1 ++ l2` afterwards (the remaining waiters in their order), and
is absent when that list is empty. -/
theorem C6_timeout_isolation (mem : Nat → Entry) (lockers : GoMap (List WriteAction))
    (t : AcquireAction) :
    ∃ lockers1, startLockMinder mem lockers (.timeoutLock t) = some (lockers1, []) ∧
      (∀ k, k ≠ t.Key → lockers1 k = lockers k) ∧
      (lockers t.Key = none → lockers1 = lockers) ∧
      (∀ q, lockers t.Key = some q → (∀ b ∈ q, b.Value ≠ t.Id) → lockers1 = lockers) ∧
      (∀ l1 a l2, lockers t.Key = some (l1 ++ a :: l2) → (∀ b ∈ l1, b.Value ≠ t.Id) →
        a.Value = t.Id →
        lockers1 t.Key = if l1 ++ l2 = [] then none else some (l1 ++ l2)) := by
  have key : ∀ lockers1 out, startLockMinder mem lockers (.timeoutLock t) = some (lockers1, out) →
      out = [] ∧
      (∀ k, k ≠ t.Key → lockers1 k = lockers k) ∧
      (lockers t.Key = none → lockers1 = lockers) ∧
      (∀ q, lockers t.Key = some q → (∀ b ∈ q, b.Value ≠ t.Id) → lockers1 = lockers) ∧
      (∀ l1 a l2, lockers t.Key = some (l1 ++ a :: l2) → (∀ b ∈ l1, b.Value ≠ t.Id) →
        a.Value = t.Id →
        lockers1 t.Key = if l1 ++ l2 = [] then none else some (l1 ++ l2)) := by
    intro lockers1 out hstep
    have hnone : lockers t.Key = none → lockers1 = lockers ∧ out = [] := by
      intro h
      rw [timeout_turn_none mem lockers t h] at hstep
      simp only [Option.some.injEq, Prod.mk.injEq] at hstep
      exact ⟨hstep.1.symm, hstep.2.symm⟩
    have hno : ∀ q, lockers t.Key = some q → (∀ b ∈ q, b.Value ≠ t.Id) →
        lockers1 = lockers ∧ out = [] := by
      intro q h hall
      rw [timeout_turn_no_match mem lockers t q h hall] at hstep
      simp only [Option.some.injEq, Prod.mk.injEq] at hstep
      exact ⟨hstep.1.symm, hstep.2.symm⟩
    have hyes : ∀ l1 a l2, lockers t.Key = some (l1 ++ a :: l2) →
        (∀ b ∈ l1, b.Value ≠ t.Id) → a.Value = t.Id →
        lockers1 = (if l1 ++ l2 = [] then lockers.delete t.Key
          else lockers.set t.Key (l1 ++ l2)) ∧ out = [] := by
      intro l1 a l2 h hall ha
      rw [timeout_turn_match mem lockers t l1 a l2 h hall ha] at hstep
      simp only [Option.some.injEq, Prod.mk.injEq] at hstep
      exact ⟨hstep.1.symm, hstep.2.symm⟩
    have hcases : lockers1 = lockers ∧ out = [] ∨
        ∃ l1 l2, lockers1 = (if l1 ++ l2 = [] then lockers.delete t.Key
          else lockers.set t.Key (l1 ++ l2)) ∧ out = [] := by
      cases h : lockers t.Key with
      | none => exact Or.inl (hnone h)
      | some q =>
        by_cases hm : ∃ b ∈ q, b.Value = t.Id
        · obtain ⟨l1, a, l2, hq, hall, ha⟩ := first_match_split t.Id q hm
          exact Or.inr ⟨l1, l2, hyes l1 a l2 (by rw [h, hq]) hall ha⟩
        · exact Or.inl (hno q h (fun b hb hv => hm ⟨b, hb, hv⟩))
    refine ⟨?_, ?_, fun h => (hnone h).1, fun q h hall => (hno q h hall).1, ?_⟩
    · rcases hcases with h | ⟨_, _, h⟩ <;> exact h.2
    · intro k hk
      rcases hcases with h | ⟨l1, l2, h⟩
      · rw [h.1]
      · rw [h.1]
        split <;> simp [GoMap.delete, GoMap.set, hk]
    · intro l1 a l2 h hall ha
      rw [(hyes l1 a l2 h hall ha).1]
      split <;> simp [GoMap.delete, GoMap.set]
  have hex : ∃ res, startLockMinder mem lockers (.timeoutLock t) = some res := by
    cases h : lockers t.Key with
    | none => exact ⟨_, timeout_turn_none mem lockers t h⟩
    | some q =>
      by_cases hm : ∃ b ∈ q, b.Value = t.Id
      · obtain ⟨l1, a, l2, hq, hall, ha⟩ := first_match_split t.Id q hm
        exact ⟨_, timeout_turn_match mem lockers t l1 a l2 (by rw [h, hq]) hall ha⟩
      · exact ⟨_, timeout_turn_no_match mem lockers t q h (fun b hb hv => hm ⟨b, hb, hv⟩)⟩
  obtain ⟨⟨lockers1, out⟩, hstep⟩ := hex
  obtain ⟨hout, hrest⟩ := key lockers1 out hstep
  subst hout
  exact ⟨lockers1, hstep, hrest⟩

/-- C6 on a concrete table: the timeout of the second of three waiters of `k`
leaves the first and the third, in that order, and the queue of `j` as it
was. -/
theorem C6_timeout_isolation_witness :
    ∃ lockers1, startLockMinder oneEntry.mem sampleLockers
        (.timeoutLock { Key := "k", Id := "t2" }) = some (lockers1, []) ∧
      lockers1 "k" = some [{ Entry := 0, Value := "t1", Error := 1 },
        { Entry := 0, Value := "t3", Error := 3 }] ∧
      lockers1 "j" = some [{ Entry := 1, Value := "t4", Error := 4 }] := by
  obtain ⟨lockers1, hstep, hother, _, _, hmatch⟩ :=
    C6_timeout_isolation oneEntry.mem sampleLockers { Key := "k", Id := "t2" }
  refine ⟨lockers1, hstep, ?_, ?_⟩
  · have h := hmatch [{ Entry := 0, Value := "t1", Error := 1 }]
      { Entry := 0, Value := "t2", Error := 2 } [{ Entry := 0, Value := "t3", Error := 3 }]
      (by decide) (by decide) (by decide)
    simpa using h
  · rw [hother "j" (by decide)]
    decide

/-- C7: `DeleteEntry(k)` on a store that has `k` returns `nil`, removes `k`
from the store (other keys and all entry cells are kept), makes `LockExists`
false for the entry's lock id, and sends exactly one delete event for `k`.
The lock minder's turn on that event, from any table, does not panic, sends
the "deleted before lock could be acquired" error once to each waiter queued
for `k`, in queue order, and nothing else, and leaves a table without `k` and
with the queues of all other keys unchanged. `DeleteEntry` on an absent key
returns an error, changes nothing and sends nothing. -/
theorem C7_delete_cascade (W : World) (lockers : GoMap (List WriteAction)) (k : String) :
    (∀ entry, W.data.Entries k = some entry →
      (DeleteEntry W k).2.2 = none ∧
      (DeleteEntry W k).2.1 = [Msg.minder (.deleteEntry { Key := k, Id := "" })] ∧
      (DeleteEntry W k).1.data.Entries k = none ∧
      (∀ k1, k1 ≠ k → (DeleteEntry W k).1.data.Entries k1 = W.data.Entries k1) ∧
      (DeleteEntry W k).1.mem = W.mem ∧
      (DeleteEntry W k).1.locks.LockExists (W.mem entry).LockId = false ∧
      ∃ lockers1,
        startLockMinder (DeleteEntry W k).1.mem lockers (.deleteEntry { Key := k, Id := "" }) =
          some (lockers1,
            ((lockers k).getD []).map fun a => Msg.error a.Error (some deletedErr)) ∧
        lockers1 k = none ∧
        ∀ k1, k1 ≠ k → lockers1 k1 = lockers k1) ∧
    (W.data.Entries k = none →
      (DeleteEntry W k).1 = W ∧ (DeleteEntry W k).2.1 = [] ∧
      (DeleteEntry W k).2.2 = some ("Cannot delete entry '" ++ k ++ "', does not exist.")) := by
  constructor
  · intro entry hent
    refine ⟨?_, ?_, ?_, ?_, ?_, ?_, ?_⟩
    · simp [DeleteEntry, hent]
    · simp [DeleteEntry, hent]
    · simp [DeleteEntry, hent, GoMap.delete]
    · intro k1 hk1
      simp [DeleteEntry, hent, GoMap.delete, hk1]
    · simp [DeleteEntry, hent]
    · cases h : W.locks.Locks (W.mem entry).LockId <;>
        simp [DeleteEntry, hent, LockStore.DeleteLock, LockStore.LockExists, GoMap.delete,
          Entry.GetLockId, h]
    · cases hq : lockers k with
      | none =>
        refine ⟨lockers, ?_, hq, fun _ _ => rfl⟩
        rw [delete_turn_none _ lockers { Key := k, Id := "" } hq]
        simp
      | some q =>
        refine ⟨lockers.delete k, ?_, by simp [GoMap.delete], ?_⟩
        · rw [delete_turn_some _ lockers { Key := k, Id := "" } q hq]
          simp
        · intro k1 hk1
          simp [GoMap.delete, hk1]
  · intro hent
    simp [DeleteEntry, hent]

/-- C7 on a concrete input: the store with the entry `k`, the table with
three waiters for `k` and one for `j`. The three waiters of `k` get the error
on their channels 1, 2, 3; the waiter of `j` stays queued. -/
theorem C7_delete_cascade_witness :
    (DeleteEntry oneEntry "k").2.2 = none ∧
    (DeleteEntry oneEntry "k").1.data.Entries "k" = none ∧
    ∃ lockers1,
      startLockMinder (DeleteEntry oneEntry "k").1.mem sampleLockers
          (.deleteEntry { Key := "k", Id := "" }) =
        some (lockers1, [Msg.error 1 (some deletedErr), Msg.error 2 (some deletedErr),
          Msg.error 3 (some deletedErr)]) ∧
      lockers1 "k" = none ∧
      lockers1 "j" = some [{ Entry := 1, Value := "t4", Error := 4 }] := by
  obtain ⟨h1, _, h3, _, _, _, lockers1, hstep, hk, hother⟩ :=
    (C7_delete_cascade oneEntry sampleLockers "k").1 0 (by decide)
  refine ⟨h1, h3, lockers1, ?_, hk, ?_⟩
  · have hl : (((sampleLockers "k").getD []).map fun a => Msg.error a.Error (some deletedErr)) =
        [Msg.error 1 (some deletedErr), Msg.error 2 (some deletedErr),
          Msg.error 3 (some deletedErr)] := by decide
    rw [hstep, hl]
  · rw [hother "j" (by decide)]
    decide

/-! ### The invariant of the waitlist table -/

theorem turn_keeps_nonempty (mem : Nat → Entry) (lockers : GoMap (List WriteAction))
    (m : MinderMsg) (hinv : ∀ k q, lockers k = some q → q ≠ []) :
    ∃ lockers1 out, startLockMinder mem lockers m = some (lockers1, out) ∧
      ∀ k q, lockers1 k = some q → q ≠ [] := by
  have hset : ∀ (key : String) (l : List WriteAction), l ≠ [] →
      ∀ k q, (lockers.set key l) k = some q → q ≠ [] := by
    intro key l hl k q hk
    by_cases h : k = key
    · simp only [GoMap.set, h, if_true, Option.some.injEq] at hk
      exact hk ▸ hl
    · simp only [GoMap.set, h, if_false] at hk
      exact hinv k q hk
  have hdel : ∀ (key : String), ∀ k q, (lockers.delete key) k = some q → q ≠ [] := by
    intro key k q hk
    by_cases h : k = key
    · simp [GoMap.delete, h] at hk
    · simp only [GoMap.delete, h, if_false] at hk
      exact hinv k q hk
  cases m with
  | acquireLock a =>
    cases h : lockers (mem a.Entry).GetKey with
    | none =>
      exact ⟨_, _, acquire_turn_none mem lockers a h, hset _ _ (by simp)⟩
    | some locks =>
      exact ⟨_, _, acquire_turn_some mem lockers a locks h, hset _ _ (by simp)⟩
  | releaseLock r =>
    cases h : lockers r.Key with
    | none => exact ⟨_, _, release_turn_none mem lockers r h, hinv⟩
    | some locks =>
      cases locks with
      | nil => exact ⟨_, _, release_turn_nil mem lockers r h, hdel _⟩
      | cons e rest =>
        refine ⟨_, _, release_turn_cons mem lockers r e rest h, ?_⟩
        by_cases hr : rest = []
        · rw [if_pos hr]; exact hdel _
        · rw [if_neg hr]; exact hset _ _ hr
  | timeoutLock t =>
    cases h : lockers t.Key with
    | none => exact ⟨_, _, timeout_turn_none mem lockers t h, hinv⟩
    | some q =>
      by_cases hm : ∃ b ∈ q, b.Value = t.Id
      · obtain ⟨l1, a, l2, hq, hall, ha⟩ := first_match_split t.Id q hm
        refine ⟨_, _, timeout_turn_match mem lockers t l1 a l2 (by rw [h, hq]) hall ha, ?_⟩
        by_cases hl : l1 ++ l2 = []
        · rw [if_pos hl]; exact hdel _
        · rw [if_neg hl]; exact hset _ _ hl
      · exact ⟨_, _,
          timeout_turn_no_match mem lockers t q h (fun b hb hv => hm ⟨b, hb, hv⟩), hinv⟩
  | deleteEntry d =>
    cases h : lockers d.Key with
    | none => exact ⟨_, _, delete_turn_none mem lockers d h, hinv⟩
    | some q => exact ⟨_, _, delete_turn_some mem lockers d q h, hdel _⟩

theorem run_keeps_nonempty :
    ∀ (ms : List ((Nat → Entry) × MinderMsg)) (lockers : GoMap (List WriteAction)),
      (∀ k q, lockers k = some q → q ≠ []) →
      ∃ lockers1 outs, minderRun lockers ms = some (lockers1, outs) ∧
        outs.length = ms.length ∧ ∀ k q, lockers1 k = some q → q ≠ [] := by
  intro ms
  induction ms with
  | nil => intro lockers hinv; exact ⟨lockers, [], rfl, rfl, hinv⟩
  | cons x ms ih =>
    intro lockers hinv
    obtain ⟨mem, m⟩ := x
    obtain ⟨l1, out, hstep, hinv1⟩ := turn_keeps_nonempty mem lockers m hinv
    obtain ⟨l2, outs, hrun, hlen, hinv2⟩ := ih l1 hinv1
    exact ⟨l2, out :: outs, by simp [minderRun, hstep, hrun], by simp [hlen], hinv2⟩

/-- C8: from the empty table the lock minder can read any finite sequence of
acquire, release, timeout and delete messages (with any entry cells at each
turn) without a panic, and in the table it then holds every key present maps
to a non-empty queue; so on that table a release, for whichever key, finds no
list that exists and is empty, and does not take the branch for it. -/
theorem C8_waitlist_queues_nonempty (ms : List ((Nat → Entry) × MinderMsg)) :
    ∃ lockers outs, minderRun GoMap.empty ms = some (lockers, outs) ∧
      outs.length = ms.length ∧
      (∀ k q, lockers k = some q → q ≠ []) ∧
      (∀ r : AcquireAction, lockers r.Key ≠ some []) ∧
      ∀ r, releaseBranch lockers r ≠ ReleaseBranch.emptyList := by
  obtain ⟨lockers, outs, hrun, hlen, hinv⟩ :=
    run_keeps_nonempty ms GoMap.empty (by intro k q h; simp [GoMap.empty] at h)
  refine ⟨lockers, outs, hrun, hlen, hinv, fun r h => hinv r.Key [] h rfl, ?_⟩
  intro r
  unfold releaseBranch
  cases h : lockers r.Key with
  | none => simp
  | some q =>
    have hq : q ≠ [] := hinv r.Key q h
    have hl : q.length > 0 := List.length_pos.mpr hq
    simp [hl]

/-! ### First in, first out -/

theorem turn_frame (mem : Nat → Entry) (lockers : GoMap (List WriteAction)) (m : MinderMsg)
    (k : String) (hk : m.key mem ≠ k) :
    ∃ lockers1 out, startLockMinder mem lockers m = some (lockers1, out) ∧
      lockers1 k = lockers k := by
  have hk1 : ¬ k = m.key mem := fun h => hk h.symm
  have hset : ∀ l, (lockers.set (m.key mem) l) k = lockers k := by
    intro l; simp [GoMap.set, hk1]
  have hdel : (lockers.delete (m.key mem)) k = lockers k := by
    simp [GoMap.delete, hk1]
  cases m with
  | acquireLock a =>
    cases h : lockers (mem a.Entry).GetKey with
    | none => exact ⟨_, _, acquire_turn_none mem lockers a h, hset _⟩
    | some locks => exact ⟨_, _, acquire_turn_some mem lockers a locks h, hset _⟩
  | releaseLock r =>
    cases h : lockers r.Key with
    | none => exact ⟨_, _, release_turn_none mem lockers r h, rfl⟩
    | some locks =>
      cases locks with
      | nil => exact ⟨_, _, release_turn_nil mem lockers r h, hdel⟩
      | cons e rest =>
        refine ⟨_, _, release_turn_cons mem lockers r e rest h, ?_⟩
        by_cases hr : rest = []
        · rw [if_pos hr]; exact hdel
        · rw [if_neg hr]; exact hset _
  | timeoutLock t =>
    cases h : lockers t.Key with
    | none => exact ⟨_, _, timeout_turn_none mem lockers t h, rfl⟩
    | some q =>
      by_cases hm : ∃ b ∈ q, b.Value = t.Id
      · obtain ⟨l1, a, l2, hq, hall, ha⟩ := first_match_split t.Id q hm
        refine ⟨_, _, timeout_turn_match mem lockers t l1 a l2 (by rw [h, hq]) hall ha, ?_⟩
        by_cases hl : l1 ++ l2 = []
        · rw [if_pos hl]; exact hdel
        · rw [if_neg hl]; exact hset _
      · exact ⟨_, _,
          timeout_turn_no_match mem lockers t q h (fun b hb hv => hm ⟨b, hb, hv⟩), rfl⟩
  | deleteEntry d =>
    cases h : lockers d.Key with
    | none => exact ⟨_, _, delete_turn_none mem lockers d h, rfl⟩
    | some q => exact ⟨_, _, delete_turn_some mem lockers d q h, hdel⟩

theorem fifo_run (k : String) :
    ∀ (ms : List ((Nat → Entry) × MinderMsg)) (lockers : GoMap (List WriteAction))
      (q : List WriteAction) (aq : List ((Nat → Entry) × WriteAction))
      (rl : List ((Nat → Entry) × AcquireAction)),
      lockers k = (if q = [] then none else some q) →
      ms.filter (aboutKey k) =
        aq.map (fun x => (x.1, MinderMsg.acquireLock x.2)) ++
          rl.map (fun y => (y.1, MinderMsg.releaseLock y.2)) →
      rl.length = q.length + aq.length →
      ∃ lockers1 outs, minderRun lockers ms = some (lockers1, outs) ∧
        outs.length = ms.length ∧
        ((ms.zip outs).filter fun x => aboutKey k x.1).map (fun x => x.2) =
          aq.map (fun _ => []) ++
            (q ++ aq.map fun x => x.2).map (fun w => [Msg.atomics (.setLockId w)]) ∧
        lockers1 k = none := by
  intro ms
  induction ms with
  | nil =>
    intro lockers q aq rl hq hms hlen
    have haq : aq = [] := by
      cases aq with
      | nil => rfl
      | cons a aq => simp at hms
    have hrl : rl = [] := by
      cases rl with
      | nil => rfl
      | cons r rl => simp [haq] at hms
    subst haq; subst hrl
    have hq0 : q = [] := by
      apply List.length_eq_zero.mp
      simp at hlen
      omega
    subst hq0
    exact ⟨lockers, [], rfl, rfl, by simp, by simpa using hq⟩
  | cons x ms ih =>
    intro lockers q aq rl hq hms hlen
    obtain ⟨mem, m⟩ := x
    by_cases hk : m.key mem = k
    · have hab : aboutKey k (mem, m) = true := by simp [aboutKey, hk]
      rw [List.filter_cons_of_pos hab] at hms
      cases aq with
      | cons a aq =>
        simp only [List.map_cons, List.cons_append, List.cons.injEq, Prod.mk.injEq] at hms
        obtain ⟨⟨hmem, hm⟩, hms⟩ := hms
        subst hm
        have hkey : (mem a.2.Entry).GetKey = k := hk
        have hstep : startLockMinder mem lockers (.acquireLock a.2) =
            some (lockers.set k (q ++ [a.2]), []) := by
          by_cases hq0 : q = []
          · rw [if_pos hq0] at hq
            rw [acquire_turn_none mem lockers a.2 (by rw [hkey]; exact hq), hkey, hq0]
            rfl
          · rw [if_neg hq0] at hq
            rw [acquire_turn_some mem lockers a.2 q (by rw [hkey]; exact hq), hkey]
        obtain ⟨l2, outs, hrun, hl, hout, hfin⟩ :=
          ih (lockers.set k (q ++ [a.2])) (q ++ [a.2]) aq rl
            (by simp [GoMap.set]) hms (by simp at hlen ⊢; omega)
        refine ⟨l2, [] :: outs, by simp [minderRun, hstep, hrun], by simp [hl], ?_, hfin⟩
        simp [List.filter_cons, hab, hout]
      | nil =>
        cases rl with
        | nil => simp at hms
        | cons r rl =>
          simp only [List.map_nil, List.nil_append, List.map_cons, List.cons.injEq,
            Prod.mk.injEq] at hms
          obtain ⟨⟨hmem, hm⟩, hms⟩ := hms
          subst hm
          have hkey : r.2.Key = k := hk
          cases q with
          | nil => simp at hlen
          | cons w q =>
            rw [if_neg (by simp)] at hq
            have hstep := release_turn_cons mem lockers r.2 w q (by rw [hkey]; exact hq)
            rw [hkey] at hstep
            obtain ⟨l2, outs, hrun, hl, hout, hfin⟩ :=
              ih (if q = [] then lockers.delete k else lockers.set k q) q [] rl
                (by by_cases hq0 : q = [] <;> simp [hq0, GoMap.set, GoMap.delete])
                (by simpa using hms) (by simp at hlen ⊢; omega)
            refine ⟨l2, [Msg.atomics (.setLockId w)] :: outs,
              by simp [minderRun, hstep, hrun], by simp [hl], ?_, hfin⟩
            simpa [List.filter_cons, hab] using hout
    · have hab : ¬ aboutKey k (mem, m) = true := by simp [aboutKey, hk]
      rw [List.filter_cons_of_neg hab] at hms
      obtain ⟨l1, out, hstep, hframe⟩ := turn_frame mem lockers m k hk
      obtain ⟨l2, outs, hrun, hl, hout, hfin⟩ :=
        ih l1 q aq rl (by rw [hframe]; exact hq) hms hlen
      refine ⟨l2, out :: outs, by simp [minderRun, hstep, hrun], by simp [hl], ?_, hfin⟩
      simpa [List.filter_cons, hab] using hout

/-- C5: let the table have no queue for `k`, and let the lock minder read any
sequence of messages in which those about `k` are, in order, acquires for the
waiters `aq` and then as many releases for `k`; messages about other keys
(acquires, releases, timeouts, deletes) may come anywhere in between. Then no
turn panics, each acquire for `k` sends nothing, the releases for `k` forward
the waiters of `aq` to `setLockId` in the order of `aq`, one per release, and
`k` has no queue at the end. A release for another key leaves the queue of
`k` as it is and forwards only the head of its own key's queue. -/
theorem C5_fifo_per_key (k : String) (lockers : GoMap (List WriteAction))
    (ms : List ((Nat → Entry) × MinderMsg)) (aq : List ((Nat → Entry) × WriteAction))
    (rl : List ((Nat → Entry) × AcquireAction))
    (h0 : lockers k = none)
    (hms : ms.filter (aboutKey k) =
      aq.map (fun x => (x.1, MinderMsg.acquireLock x.2)) ++
        rl.map (fun y => (y.1, MinderMsg.releaseLock y.2)))
    (hlen : rl.length = aq.length) :
    (∃ lockers1 outs, minderRun lockers ms = some (lockers1, outs) ∧
      outs.length = ms.length ∧
      ((ms.zip outs).filter fun x => aboutKey k x.1).map (fun x => x.2) =
        aq.map (fun _ => []) ++ aq.map (fun x => [Msg.atomics (.setLockId x.2)]) ∧
      lockers1 k = none) ∧
    ∀ (mem : Nat → Entry) (T : GoMap (List WriteAction)) (r : AcquireAction), r.Key ≠ k →
      ∃ T1, startLockMinder mem T (.releaseLock r) =
          some (T1, match T r.Key with
            | some (e :: _) => [Msg.atomics (.setLockId e)]
            | _ => []) ∧
        T1 k = T k := by
  constructor
  · obtain ⟨lockers1, outs, hrun, hl, hout, hfin⟩ :=
      fifo_run k ms lockers [] aq rl (by simpa using h0) hms (by simpa using hlen)
    refine ⟨lockers1, outs, hrun, hl, ?_, hfin⟩
    rw [hout]
    simp
  · intro mem T r hr
    have hr1 : ¬ k = r.Key := fun h => hr h.symm
    cases h : T r.Key with
    | none => exact ⟨T, release_turn_none mem T r h, rfl⟩
    | some locks =>
      cases locks with
      | nil => exact ⟨_, release_turn_nil mem T r h, by simp [GoMap.delete, hr1]⟩
      | cons e rest =>
        refine ⟨_, release_turn_cons mem T r e rest h, ?_⟩
        by_cases hrest : rest = []
        · simp [hrest, GoMap.delete, hr1]
        · simp [hrest, GoMap.set, hr1]

/-- C5 on a concrete run from the empty table: acquires for `t1` and `t2` on
`k`, an acquire and a release on `j` in between, then two releases for `k`.
The sends of the six turns are: nothing for the three acquires, the waiter of
`j` for the release of `j`, then `t1` and then `t2`. -/
theorem C5_fifo_per_key_witness :
    (∃ lockers1 outs, minderRun GoMap.empty fifoMsgs = some (lockers1, outs) ∧
      outs.length = fifoMsgs.length ∧
      ((fifoMsgs.zip outs).filter fun x => aboutKey "k" x.1).map (fun x => x.2) =
        fifoAcquires.map (fun _ => []) ++
          fifoAcquires.map (fun x => [Msg.atomics (.setLockId x.2)]) ∧
      lockers1 "k" = none) ∧
    (minderRun GoMap.empty fifoMsgs).map (fun x => x.2) =
      some [[], [], [],
        [Msg.atomics (.setLockId { Entry := 1, Value := "t9", Error := 9 })],
        [Msg.atomics (.setLockId { Entry := 0, Value := "t1", Error := 1 })],
        [Msg.atomics (.setLockId { Entry := 0, Value := "t2", Error := 2 })]] :=
  ⟨(C5_fifo_per_key "k" GoMap.empty fifoMsgs fifoAcquires fifoReleases rfl rfl rfl).1,
    by decide⟩

/-- C4: let the head of the queue of the key of the entry at `e` be the waiter
`(e, u, c)` with a non-empty token `u`. `UnsetLockId` on `e` sends one release
for the key; the lock minder's turn on that release forwards exactly that
waiter to `setLockId` and leaves the rest of the queue (no queue when the rest
is empty); the turn of `startAtomics` on the forwarded message sends `nil`
once on `c` and nothing else, and leaves the entry locked with lock id `u`,
key and value as before. A `putVal` suspended as that waiter, with nothing
written yet, that then receives the `nil` sets the value to its request body
and answers 200 with the body `lock_id = u`, the lock id still `u`. -/
theorem C4_release_handoff (W : World) (lockers : GoMap (List WriteAction)) (e : Nat)
    (u : String) (c : Nat) (rest : List WriteAction) (s : Waiting)
    (hq : lockers (W.mem e).Key = some ({ Entry := e, Value := u, Error := c } :: rest))
    (hu : u ≠ "")
    (hs : s.r = { Entry := e, Value := u, Error := c })
    (hw : s.w.wroteHeader = false) :
    (UnsetLockId W e).2 = [Msg.minder (.releaseLock { Key := (W.mem e).Key, Id := "" })] ∧
    startLockMinder (UnsetLockId W e).1.mem lockers
        (.releaseLock { Key := (W.mem e).Key, Id := "" }) =
      some (if rest = [] then lockers.delete (W.mem e).Key else lockers.set (W.mem e).Key rest,
        [Msg.atomics (.setLockId { Entry := e, Value := u, Error := c })]) ∧
    (startAtomics (UnsetLockId W e).1 (.setLockId { Entry := e, Value := u, Error := c })).2 =
      [Msg.error c none] ∧
    (startAtomics (UnsetLockId W e).1
        (.setLockId { Entry := e, Value := u, Error := c })).1.mem e =
      { Key := (W.mem e).Key, Value := (W.mem e).Value, LockId := u } ∧
    ((startAtomics (UnsetLockId W e).1
        (.setLockId { Entry := e, Value := u, Error := c })).1.mem e).IsLocked = true ∧
    (putValResume (startAtomics (UnsetLockId W e).1
        (.setLockId { Entry := e, Value := u, Error := c })).1 s (.recv none)).2.1 = [] ∧
    (putValResume (startAtomics (UnsetLockId W e).1
        (.setLockId { Entry := e, Value := u, Error := c })).1 s (.recv none)).2.2.code = 200 ∧
    (putValResume (startAtomics (UnsetLockId W e).1
        (.setLockId { Entry := e, Value := u, Error := c })).1 s (.recv none)).2.2.body =
      s.w.body ++ [[("lock_id", u)]] ∧
    (putValResume (startAtomics (UnsetLockId W e).1
        (.setLockId { Entry := e, Value := u, Error := c })).1 s (.recv none)).1.mem e =
      { Key := (W.mem e).Key, Value := s.bytes, LockId := u } := by
  have hA : startAtomics (UnsetLockId W e).1 (.setLockId { Entry := e, Value := u, Error := c }) =
      ((UnsetLockId W e).1.store e
        { Key := (W.mem e).Key, Value := (W.mem e).Value, LockId := u }, [Msg.error c none]) := by
    simp [startAtomics, SetLockId, Entry.SetLockId, UnsetLockId, World.store]
  refine ⟨?_, ?_, ?_, ?_, ?_, ?_, ?_, ?_, ?_⟩
  · simp [UnsetLockId, World.store]
  · exact release_turn_cons _ lockers { Key := (W.mem e).Key, Id := "" } _ rest hq
  · rw [hA]
  · rw [hA]; simp [World.store]
  · rw [hA]; simp [World.store, Entry.IsLocked, hu]
  · simp [putValResume, AcquireLock.select]
  · rw [hA]
    simp [putValResume, AcquireLock.select, putValFinish, marshalLockId,
      ResponseWriter.Write, ResponseWriter.Set, ResponseWriter.WriteHeader, hw]
  · rw [hA]
    simp [putValResume, AcquireLock.select, putValFinish, marshalLockId,
      ResponseWriter.Write, ResponseWriter.Set, ResponseWriter.WriteHeader, hw, hs]
  · rw [hA]
    simp [putValResume, AcquireLock.select, putValFinish, marshalLockId, SetValue,
      Entry.SetValue, World.store, hs]

/-- C4 on a concrete input: the entry `k` locked under `ABCDE`, one waiter
with the token `UUUUU` and the reply channel 5, a `putVal` with body `new`
suspended as that waiter. -/
theorem C4_release_handoff_witness :
    (startAtomics (UnsetLockId lockedEntry 0).1
        (.setLockId { Entry := 0, Value := "UUUUU", Error := 5 })).2 = [Msg.error 5 none] ∧
    (startAtomics (UnsetLockId lockedEntry 0).1
        (.setLockId { Entry := 0, Value := "UUUUU", Error := 5 })).1.mem 0 =
      { Key := "k", Value := "", LockId := "UUUUU" } ∧
    (putValResume (startAtomics (UnsetLockId lockedEntry 0).1
        (.setLockId { Entry := 0, Value := "UUUUU", Error := 5 })).1 waitingPut
        (.recv none)).2.2.code = 200 ∧
    (putValResume (startAtomics (UnsetLockId lockedEntry 0).1
        (.setLockId { Entry := 0, Value := "UUUUU", Error := 5 })).1 waitingPut
        (.recv none)).1.mem 0 = { Key := "k", Value := "new", LockId := "UUUUU" } := by
  have h := C4_release_handoff lockedEntry oneWaiter 0 "UUUUU" 5 [] waitingPut
    (by decide) (by decide) (by decide) (by decide)
  exact ⟨h.2.2.1, h.2.2.2.1, h.2.2.2.2.2.2.1, h.2.2.2.2.2.2.2.2⟩

/-! ### Configuration -/

/-- C16: `loadConfig` keeps a port between 1 and 65533 and replaces any other
by 9000; replaces the timeout 0 by 5 and keeps any other; keeps an atomic
buffer of at least 1 and replaces any other by 1; the debug flag is kept.
Afterwards the port is between 1 and 65533, the atomic buffer is at least 1
and the timeout is not 0, and `loadConfig` applied to its own result changes
nothing. -/
theorem C16_loadConfig_normalises (c : AppSettings) :
    (loadConfig c).Port = (if 1 ≤ c.Port ∧ c.Port ≤ 65533 then c.Port else 9000) ∧
    (loadConfig c).TimeOut = (if c.TimeOut = 0 then 5 else c.TimeOut) ∧
    (loadConfig c).AtomicBuffer = (if 1 ≤ c.AtomicBuffer then c.AtomicBuffer else 1) ∧
    (loadConfig c).Debug = c.Debug ∧
    (1 ≤ (loadConfig c).Port ∧ (loadConfig c).Port ≤ 65533) ∧
    1 ≤ (loadConfig c).AtomicBuffer ∧
    (loadConfig c).TimeOut ≠ 0 ∧
    loadConfig (loadConfig c) = loadConfig c := by
  obtain ⟨port, debug, timeout, buffer⟩ := c
  simp only [loadConfig]
  by_cases hp : port ≤ 0 ∨ port ≥ 65534 <;> by_cases ht : timeout = 0 <;>
    by_cases hb : buffer < 1 <;> simp [hp, ht, hb] <;> omega

theorem loadConfig_buffer_pos (c : AppSettings) : 1 ≤ (loadConfig c).AtomicBuffer := by
  obtain ⟨port, debug, timeout, buffer⟩ := c
  simp only [loadConfig]
  by_cases hp : port ≤ 0 ∨ port ≥ 65534 <;> by_cases ht : timeout = 0 <;>
    by_cases hb : buffer < 1 <;> simp [hp, ht, hb] <;> omega

/-- C18: whatever the loader reads, when `main` has run `loadConfig` each of
the thirteen channels has the capacity 0 it was made with during package
initialisation, while the normalised atomic buffer is at least 1: no channel
has the capacity of the setting. With a configuration that sets the atomic
buffer to 4 the setting is 4, and with one that does not set it the setting
is 1; the capacities are 0 in both cases. -/
theorem C18_channel_capacity_is_zero (load : AppSettings → AppSettings) :
    (mainLoadConfig load packageInit).chans = makeChannels AppSettings.zero ∧
    (mainLoadConfig load packageInit).chans =
      { isLocked := 0, validLock := 0, unsetLockId := 0, setLockId := 0, getLockId := 0,
        getValue := 0, setValue := 0, getKey := 0, getJson := 0, acquireLock := 0,
        releaseLock := 0, timeoutLock := 0, deleteEntry := 0 } ∧
    1 ≤ (mainLoadConfig load packageInit).Config.AtomicBuffer ∧
    (mainLoadConfig load packageInit).chans ≠
      makeChannels (mainLoadConfig load packageInit).Config ∧
    (mainLoadConfig (fun c => { c with AtomicBuffer := 4 }) packageInit).Config.AtomicBuffer = 4 ∧
    (mainLoadConfig (fun c => c) packageInit).Config.AtomicBuffer = 1 := by
  have hb : 1 ≤ (loadConfig (load AppSettings.zero)).AtomicBuffer :=
    loadConfig_buffer_pos (load AppSettings.zero)
  refine ⟨rfl, rfl, hb, ?_, by decide, by decide⟩
  intro h
  have h1 : (mainLoadConfig load packageInit).chans.isLocked =
      (makeChannels (mainLoadConfig load packageInit).Config).isLocked := by rw [← h]
  have h2 : (0 : Int) = (loadConfig (load AppSettings.zero)).AtomicBuffer := h1
  omega

/-! ### The handlers -/

theorem updateVal_matching_lock_id (W : World) (w : ResponseWriter) (r : Request)
    (key t b : String) (entry : Nat)
    (hkey : r.vars "key" = some key) (hlock : r.vars "lock_id" = some t)
    (hent : W.data.Entries key = some entry)
    (ht : (W.mem entry).LockId = t)
    (hbody : r.afterFormValue = .ok b)
    (hw : w.wroteHeader = false) :
    (r.FormValue "release" = "true" →
      (updateVal W w r).2.1.code = 204 ∧
      (updateVal W w r).1.mem entry = { Key := (W.mem entry).Key, Value := b, LockId := "" } ∧
      (updateVal W w r).2.2 =
        [Msg.minder (.releaseLock { Key := (W.mem entry).Key, Id := "" })]) ∧
    (r.FormValue "release" = "false" ∨ r.FormValue "release" = "" →
      (updateVal W w r).2.1.code = 204 ∧
      (updateVal W w r).1.mem entry = { Key := (W.mem entry).Key, Value := b, LockId := t } ∧
      (updateVal W w r).2.2 = []) := by
  have hv : (W.mem entry).ValidLock t = true := by simp [Entry.ValidLock, ht]
  constructor
  · intro h
    simp [updateVal, hkey, hlock, DataStore.GetEntry, hent, h, hv, hbody,
      ResponseWriter.WriteHeader, hw, UnsetLockId, SetValue, Entry.SetValue, World.store]
  · intro h
    rcases h with h | h <;>
      simp [updateVal, hkey, hlock, DataStore.GetEntry, hent, h, hv, hbody,
        ResponseWriter.WriteHeader, hw, SetValue, Entry.SetValue, World.store, ht]

/-- C11: the entry `k` is locked under `ABCDE` with the value `old`. The
request `POST /values/k/ABCDE` has no query (so no release value), the header
`Content-Type: application/x-www-form-urlencoded` and the body
`release=true`. `updateVal` answers 204, but `r.FormValue("release")` takes
`true` from the body and reads the body to its end: the value stored is the
empty string, not the body, the lock id is cleared and one release for `k` is
sent. The same request without the `Content-Type` stores the body, keeps the
lock id `ABCDE` and sends nothing. -/
theorem C11_form_body_drained_and_released :
    formRequest.query "release" = none ∧
    (updateVal lockedOld ResponseWriter.new formRequest).2.1.code = 204 ∧
    (updateVal lockedOld ResponseWriter.new formRequest).1.mem 0 =
      { Key := "k", Value := "", LockId := "" } ∧
    (updateVal lockedOld ResponseWriter.new formRequest).2.2 =
      [Msg.minder (.releaseLock { Key := "k", Id := "" })] ∧
    (updateVal lockedOld ResponseWriter.new { formRequest with kind := .plain }).2.1.code = 204 ∧
    (updateVal lockedOld ResponseWriter.new { formRequest with kind := .plain }).1.mem 0 =
      { Key := "k", Value := "release=true", LockId := "ABCDE" } ∧
    (updateVal lockedOld ResponseWriter.new { formRequest with kind := .plain }).2.2 = [] := by
  decide

/-- C15: for a key absent from the store `GetEntry` returns an error;
`reserveKey` returns (whatever the fuel) and `updateVal`, with any lock id,
release value and body, both answer 404, send nothing (so no message reaches
the lock minder and its table stays as it is) and leave the store, the
registry and every entry cell as they were. -/
theorem C15_unknown_key_is_404 (rand : Nat → String) (fuel : Nat) (W : World)
    (w : ResponseWriter) (r : Request) (key : String)
    (hkey : r.vars "key" = some key) (hent : W.data.Entries key = none)
    (hw : w.wroteHeader = false) :
    W.data.GetEntry key = .error ("Cannot get entry '" ++ key ++ "', does not exist.") ∧
    (∃ W1 w1, reserveKey rand fuel W w r = some (W1, [], .done w1) ∧ w1.code = 404 ∧
      w1.body = w.body ∧ W1.data.Entries = W.data.Entries ∧ W1.locks.Locks = W.locks.Locks ∧
      W1.mem = W.mem) ∧
    (updateVal W w r).2.1.code = 404 ∧
    (updateVal W w r).2.1.body = w.body ∧
    (updateVal W w r).2.2 = [] ∧
    (updateVal W w r).1.data.Entries = W.data.Entries ∧
    (updateVal W w r).1.locks.Locks = W.locks.Locks ∧
    (updateVal W w r).1.mem = W.mem := by
  refine ⟨?_, ?_, ?_, ?_, ?_, ?_, ?_, ?_⟩
  · simp [DataStore.GetEntry, hent]
  · refine ⟨{ W with rng := W.rng + 1 }, w.WriteHeader 404, ?_, ?_, ?_, rfl, rfl, rfl⟩
    · simp [reserveKey, hkey, DataStore.GetEntry, hent]
    · simp [ResponseWriter.WriteHeader, hw]
    · simp [ResponseWriter.WriteHeader, hw]
  all_goals simp [updateVal, hkey, DataStore.GetEntry, hent, ResponseWriter.WriteHeader, hw]

/-- C15 on a concrete input: the state of `init`, the routes `/reservations/x`
and `/values/x/any?release=false`. -/
theorem C15_unknown_key_is_404_witness :
    (∃ W1 w1, reserveKey constRand 0 World.init ResponseWriter.new (putRequest "x" "") =
      some (W1, [], .done w1) ∧ w1.code = 404) ∧
    (updateVal World.init ResponseWriter.new (postRequest "x" "any" "false" "v")).2.1.code =
      404 := by
  have h1 := C15_unknown_key_is_404 constRand 0 World.init ResponseWriter.new
    (putRequest "x" "") "x" (by decide) (by decide) (by decide)
  have h2 := C15_unknown_key_is_404 constRand 0 World.init ResponseWriter.new
    (postRequest "x" "any" "false" "v") "x" (by decide) (by decide) (by decide)
  obtain ⟨_, ⟨W1, w1, hr, hc, _⟩, _⟩ := h1
  exact ⟨⟨W1, w1, hr, hc⟩, h2.2.2.1⟩

/-! ### Minting a token -/

theorem newLockIdLoop_returns (rand : Nat → String) (W : World) :
    ∀ (n fuel k : Nat), n < fuel →
      (∀ m, m < n → W.locks.LockExists (rand (k + m)) = true) →
      W.locks.LockExists (rand (k + n)) = false →
      newLockIdLoop rand fuel { W with rng := k + 1 } (rand k) =
        some (rand (k + n), { W with rng := k + n + 1 }) := by
  intro n
  induction n with
  | zero =>
    intro fuel k hn _ hfresh
    cases fuel with
    | zero => omega
    | succ f =>
      have h0 : W.locks.LockExists (rand k) = false := by simpa using hfresh
      simp [newLockIdLoop, h0]
  | succ n ih =>
    intro fuel k hn hcol hfresh
    cases fuel with
    | zero => omega
    | succ f =>
      have h0 : W.locks.LockExists (rand k) = true := by simpa using hcol 0 (by omega)
      have h := ih f (k + 1) (by omega)
        (fun m hm => by have := hcol (m + 1) (by omega); rwa [Nat.add_assoc, Nat.add_comm 1 m])
        (by rwa [Nat.add_assoc, Nat.add_comm 1 n])
      simp only [newLockIdLoop, h0, if_true, randomString]
      rw [h]
      simp [Nat.add_assoc, Nat.add_comm 1 n]

theorem newLockId_returns (rand : Nat → String) (n fuel : Nat) (W : World) (hn : n < fuel)
    (hcol : ∀ m, m < n → W.locks.LockExists (rand (W.rng + m)) = true)
    (hfresh : W.locks.LockExists (rand (W.rng + n)) = false) :
    newLockId rand fuel W = some (rand (W.rng + n), { W with rng := W.rng + n + 1 }) := by
  have h := newLockIdLoop_returns rand W n fuel W.rng hn hcol hfresh
  simpa [newLockId, randomString] using h

/-! ### The handlers up to the lock -/

theorem putVal_present (rand : Nat → String) (fuel : Nat) (W W1 : World) (w : ResponseWriter)
    (r : Request) (key b t : String) (entry : Nat)
    (hkey : r.vars "key" = some key) (hbody : r.body = .ok b)
    (hent : W.data.Entries key = some entry)
    (hN : newLockId rand fuel { W with rng := W.rng + 1 } = some (t, W1)) :
    putVal rand fuel W w r =
      if (SetLockId W1 entry t).2 then
        some ((putValFinish (SetLockId W1 entry t).1 w entry t b).1, [],
          .done (putValFinish (SetLockId W1 entry t).1 w entry t b).2)
      else
        match AcquireLock.submit (SetLockId W1 entry t).1 entry
            (acquireTimeout (SetLockId W1 entry t).1.Config) t with
        | none => some ((SetLockId W1 entry t).1, [], .panic tickerPanic)
        | some (W2, a, out) => some (W2, out, .waiting { r := a, w := w, bytes := b }) := by
  simp only [putVal, hkey, DataStore.GetEntry, hent, hbody, hN]

theorem putVal_absent (rand : Nat → String) (fuel : Nat) (W W1 : World) (w : ResponseWriter)
    (r : Request) (key b t : String)
    (hkey : r.vars "key" = some key) (hbody : r.body = .ok b)
    (hent : W.data.Entries key = none)
    (hN : newLockId rand fuel
      { mem := fun q => if q = W.brk then { Key := key, Value := "", LockId := "" } else W.mem q
        brk := W.brk + 1
        data := { Entries := W.data.Entries.set key W.brk }
        locks := W.locks
        rng := W.rng + 1
        nchan := W.nchan
        Config := W.Config } = some (t, W1)) :
    putVal rand fuel W w r =
      if (SetLockId W1 W.brk t).2 then
        some ((putValFinish (SetLockId W1 W.brk t).1 w W.brk t b).1, [],
          .done (putValFinish (SetLockId W1 W.brk t).1 w W.brk t b).2)
      else
        match AcquireLock.submit (SetLockId W1 W.brk t).1 W.brk
            (acquireTimeout (SetLockId W1 W.brk t).1.Config) t with
        | none => some ((SetLockId W1 W.brk t).1, [], .panic tickerPanic)
        | some (W2, a, out) => some (W2, out, .waiting { r := a, w := w, bytes := b }) := by
  have hA : (AddEntry ({ { W with rng := W.rng + 1 } with brk := W.brk + 1 }.store W.brk
      { Key := key, Value := "", LockId := "" }) W.brk).1 =
      { mem := fun q => if q = W.brk then { Key := key, Value := "", LockId := "" } else W.mem q
        brk := W.brk + 1
        data := { Entries := W.data.Entries.set key W.brk }
        locks := W.locks
        rng := W.rng + 1
        nchan := W.nchan
        Config := W.Config } := by
    simp [AddEntry, World.store, hent]
  simp only [putVal, hkey, DataStore.GetEntry, hent, hbody, hA, hN]

theorem reserveKey_present (rand : Nat → String) (fuel : Nat) (W W1 : World)
    (w : ResponseWriter) (r : Request) (key t : String) (entry : Nat)
    (hkey : r.vars "key" = some key) (hent : W.data.Entries key = some entry)
    (hN : newLockId rand fuel { W with rng := W.rng + 1 } = some (t, W1)) :
    reserveKey rand fuel W w r =
      if (SetLockId W1 entry t).2 then
        some ((SetLockId W1 entry t).1, [],
          .done (reserveKeyFinish (SetLockId W1 entry t).1 w entry))
      else
        match AcquireLock.submit (SetLockId W1 entry t).1 entry
            (acquireTimeout (SetLockId W1 entry t).1.Config) t with
        | none => some ((SetLockId W1 entry t).1, [], .panic tickerPanic)
        | some (W2, a, out) => some (W2, out, .waiting { r := a, w := w, bytes := "" }) := by
  simp only [reserveKey, hkey, DataStore.GetEntry, hent, hN]

/-- C12: let the key be absent from the store or present with an empty lock
id, let the body `b` read without error, and let the draw number `n` of
`newLockId` be the first that is not in the registry, non-empty, with
`n < fuel`. Then `putVal` returns without waiting and sends nothing; it
answers 200 with the body `lock_id = t`, `t` being that draw; the store then
has an entry for the key (the one it had, or the new cell) whose value is `b`
and whose lock id is `t`, so that `ValidLock(t)` and `IsLocked()` are true. -/
theorem C12_putVal_absent_or_unlocked (rand : Nat → String) (fuel n : Nat) (W : World)
    (w : ResponseWriter) (r : Request) (key b : String)
    (hkey : r.vars "key" = some key) (hbody : r.body = .ok b)
    (hunl : ∀ entry, W.data.Entries key = some entry → (W.mem entry).LockId = "")
    (hn : n < fuel)
    (hcol : ∀ m, m < n → W.locks.LockExists (rand (W.rng + 1 + m)) = true)
    (hfresh : W.locks.LockExists (rand (W.rng + 1 + n)) = false)
    (hne : rand (W.rng + 1 + n) ≠ "")
    (hw : w.wroteHeader = false) :
    ∃ W1 w1, putVal rand fuel W w r = some (W1, [], .done w1) ∧
      w1.code = 200 ∧
      w1.body = w.body ++ [[("lock_id", rand (W.rng + 1 + n))]] ∧
      W1.data.Entries key = some ((W.data.Entries key).getD W.brk) ∧
      (W1.mem ((W.data.Entries key).getD W.brk)).Value = b ∧
      (W1.mem ((W.data.Entries key).getD W.brk)).LockId = rand (W.rng + 1 + n) ∧
      (W1.mem ((W.data.Entries key).getD W.brk)).ValidLock (rand (W.rng + 1 + n)) = true ∧
      (W1.mem ((W.data.Entries key).getD W.brk)).IsLocked = true := by
  cases hent : W.data.Entries key with
  | none =>
    have hN := newLockId_returns rand n fuel
      { mem := fun q => if q = W.brk then { Key := key, Value := "", LockId := "" } else W.mem q
        brk := W.brk + 1
        data := { Entries := W.data.Entries.set key W.brk }
        locks := W.locks
        rng := W.rng + 1
        nchan := W.nchan
        Config := W.Config } hn hcol hfresh
    have hput := putVal_absent rand fuel W _ w r key b _ hkey hbody hent hN
    rw [if_pos (by simp [SetLockId, Entry.SetLockId])] at hput
    refine ⟨_, _, hput, ?_, ?_, ?_, ?_, ?_, ?_, ?_⟩ <;>
      simp [putValFinish, marshalLockId, ResponseWriter.Write, ResponseWriter.Set,
        ResponseWriter.WriteHeader, hw, SetValue, Entry.SetValue, SetLockId, Entry.SetLockId,
        World.store, GoMap.set, Entry.ValidLock, Entry.IsLocked, hne]
  | some entry =>
    have hl : (W.mem entry).LockId = "" := hunl entry hent
    have hN := newLockId_returns rand n fuel { W with rng := W.rng + 1 } hn hcol hfresh
    have hput := putVal_present rand fuel W _ w r key b _ entry hkey hbody hent hN
    rw [if_pos (by simp [SetLockId, Entry.SetLockId, hl])] at hput
    refine ⟨_, _, hput, ?_, ?_, ?_, ?_, ?_, ?_, ?_⟩ <;>
      simp [putValFinish, marshalLockId, ResponseWriter.Write, ResponseWriter.Set,
        ResponseWriter.WriteHeader, hw, SetValue, Entry.SetValue, SetLockId, Entry.SetLockId,
        World.store, hent, hl, Entry.ValidLock, Entry.IsLocked, hne]

/-- C12 on a concrete input: `PUT /values/a` with body `x` on the state of
`init`, the generator returning `AAAAA`. -/
theorem C12_putVal_absent_or_unlocked_witness :
    ∃ W1 w1, putVal constRand 1 World.init ResponseWriter.new (putRequest "a" "x") =
        some (W1, [], .done w1) ∧
      w1.code = 200 ∧
      w1.body = [[("lock_id", "AAAAA")]] ∧
      W1.data.Entries "a" = some 0 ∧
      (W1.mem 0).Value = "x" ∧
      (W1.mem 0).LockId = "AAAAA" := by
  obtain ⟨W1, w1, h1, h2, h3, h4, h5, h6, _⟩ :=
    C12_putVal_absent_or_unlocked constRand 1 0 World.init ResponseWriter.new
      (putRequest "a" "x") "a" "x" (by decide) rfl (by decide) (by decide) (by decide)
      (by decide) (by decide) (by decide)
  exact ⟨W1, w1, h1, h2, h3, h4, h5, h6⟩

/-- C14: let the key have an entry with an empty lock id and the value `v`,
and let the draw number `n` of `newLockId` be the first that is not in the
registry, with `n < fuel`. Then `reserveKey` returns without waiting and
sends nothing; it answers 200 with a JSON object of exactly two members,
`value = v` and `lock_id = t`, `t` being that draw (no member holds the key);
afterwards the entry has the lock id `t`, and its key and value are as
before; the store is unchanged. -/
theorem C14_reserveKey_unlocked (rand : Nat → String) (fuel n : Nat) (W : World)
    (w : ResponseWriter) (r : Request) (key : String) (entry : Nat)
    (hkey : r.vars "key" = some key) (hent : W.data.Entries key = some entry)
    (hunl : (W.mem entry).LockId = "")
    (hn : n < fuel)
    (hcol : ∀ m, m < n → W.locks.LockExists (rand (W.rng + 1 + m)) = true)
    (hfresh : W.locks.LockExists (rand (W.rng + 1 + n)) = false)
    (hw : w.wroteHeader = false) :
    ∃ W1 w1, reserveKey rand fuel W w r = some (W1, [], .done w1) ∧
      w1.code = 200 ∧
      w1.body = w.body ++
        [[("value", (W.mem entry).Value), ("lock_id", rand (W.rng + 1 + n))]] ∧
      W1.mem entry = { Key := (W.mem entry).Key, Value := (W.mem entry).Value,
                       LockId := rand (W.rng + 1 + n) } ∧
      W1.data.Entries = W.data.Entries := by
  have hN := newLockId_returns rand n fuel { W with rng := W.rng + 1 } hn hcol hfresh
  have hres := reserveKey_present rand fuel W _ w r key _ entry hkey hent hN
  rw [if_pos (by simp [SetLockId, Entry.SetLockId, hunl])] at hres
  refine ⟨_, _, hres, ?_, ?_, ?_, ?_⟩ <;>
    simp [reserveKeyFinish, Entry.GetJson, Entry.marshal, ResponseWriter.Write,
      ResponseWriter.Set, ResponseWriter.WriteHeader, hw, SetLockId, Entry.SetLockId,
      World.store, hunl]

/-- C14 on a concrete input: `POST /reservations/k` on the state with the one
unlocked entry `k`, the generator returning `AAAAA`. -/
theorem C14_reserveKey_unlocked_witness :
    ∃ W1 w1, reserveKey constRand 1 oneEntry ResponseWriter.new (putRequest "k" "") =
        some (W1, [], .done w1) ∧
      w1.code = 200 ∧
      w1.body = [[("value", ""), ("lock_id", "AAAAA")]] ∧
      W1.mem 0 = { Key := "k", Value := "", LockId := "AAAAA" } := by
  obtain ⟨W1, w1, h1, h2, h3, h4, _⟩ :=
    C14_reserveKey_unlocked constRand 1 0 oneEntry ResponseWriter.new (putRequest "k" "")
      "k" 0 (by decide) (by decide) (by decide) (by decide) (by decide) (by decide) (by decide)
  exact ⟨W1, w1, h1, h2, h3, h4⟩

/-- C17: `PUT /values/a` on the state of `init` and `POST /reservations/k` on
the state with the unlocked entry `k` both answer 200, and in both the
headers sent with the status are empty: `Content-Type: application/json` is
put in the header map only after `WriteHeader(200)` has sent the headers. -/
theorem C17_content_type_set_after_header :
    (firstPut.bind fun x => x.2.code) = some 200 ∧
    (firstPut.bind fun x => x.2.sent) = some [] ∧
    (firstPut.bind fun x => x.2.header) = some [("Content-Type", "application/json")] ∧
    (firstReserve.bind fun x => x.2.code) = some 200 ∧
    (firstReserve.bind fun x => x.2.sent) = some [] ∧
    (firstReserve.bind fun x => x.2.header) = some [("Content-Type", "application/json")] := by
  refine ⟨?_, ?_, ?_, ?_, ?_, ?_⟩ <;> decide

/-! ### Waiting and timing out -/

theorem timeout_after_acquire (mem : Nat → Entry) (lockers : GoMap (List WriteAction))
    (wa : WriteAction)
    (hq : ∀ q, lockers (mem wa.Entry).Key = some q → ∀ a ∈ q, a.Value ≠ wa.Value) :
    ∃ T1 T2, startLockMinder mem lockers (.acquireLock wa) = some (T1, []) ∧
      wa ∈ (T1 (mem wa.Entry).Key).getD [] ∧
      startLockMinder mem T1
        (.timeoutLock { Key := (mem wa.Entry).Key, Id := wa.Value }) = some (T2, []) ∧
      wa ∉ (T2 (mem wa.Entry).Key).getD [] ∧
      (T2 (mem wa.Entry).Key).getD [] = (lockers (mem wa.Entry).Key).getD [] ∧
      ∀ k, k ≠ (mem wa.Entry).Key → T2 k = lockers k := by
  cases h : lockers (mem wa.Entry).Key with
  | none =>
    have h1 := acquire_turn_none mem lockers wa h
    have h2 := timeout_turn_match mem (lockers.set (mem wa.Entry).GetKey [wa])
      { Key := (mem wa.Entry).Key, Id := wa.Value } [] wa []
      (by simp [GoMap.set, Entry.GetKey]) (by simp) rfl
    refine ⟨_, _, h1, by simp [GoMap.set, Entry.GetKey], h2, ?_, ?_, ?_⟩
    · simp [GoMap.delete]
    · simp [GoMap.delete]
    · intro k hk
      simp [GoMap.delete, GoMap.set, Entry.GetKey, hk]
  | some q =>
    have hno : ∀ a ∈ q, a.Value ≠ wa.Value := hq q h
    have hwa : wa ∉ q := fun hm => hno wa hm rfl
    have h1 := acquire_turn_some mem lockers wa q h
    have h2 := timeout_turn_match mem (lockers.set (mem wa.Entry).GetKey (q ++ [wa]))
      { Key := (mem wa.Entry).Key, Id := wa.Value } q wa []
      (by simp [GoMap.set, Entry.GetKey]) hno rfl
    refine ⟨_, _, h1, by simp [GoMap.set, Entry.GetKey], h2, ?_, ?_, ?_⟩
    · by_cases hq0 : q = []
      · simp [hq0, GoMap.delete]
      · simp [hq0, GoMap.set, hwa]
    · by_cases hq0 : q = []
      · simp [hq0, GoMap.delete]
      · simp [hq0, GoMap.set]
    · intro k hk
      by_cases hq0 : q = []
      · simp [hq0, GoMap.delete, GoMap.set, Entry.GetKey, hk]
      · simp [hq0, GoMap.set, Entry.GetKey, hk]

theorem timeout_after_acquire_any (mem : Nat → Entry) (lockers : GoMap (List WriteAction))
    (wa : WriteAction) :
    ∃ T1 T2, startLockMinder mem lockers (.acquireLock wa) = some (T1, []) ∧
      wa ∈ (T1 (mem wa.Entry).Key).getD [] ∧
      startLockMinder mem T1
        (.timeoutLock { Key := (mem wa.Entry).Key, Id := wa.Value }) = some (T2, []) ∧
      (∀ k, k ≠ (mem wa.Entry).Key → T2 k = lockers k) ∧
      ((∀ q, lockers (mem wa.Entry).Key = some q → ∀ a ∈ q, a.Value ≠ wa.Value) →
        wa ∉ (T2 (mem wa.Entry).Key).getD [] ∧
        (T2 (mem wa.Entry).Key).getD [] = (lockers (mem wa.Entry).Key).getD []) ∧
      ∀ l1 a l2, lockers (mem wa.Entry).Key = some (l1 ++ a :: l2) →
        (∀ b ∈ l1, b.Value ≠ wa.Value) → a.Value = wa.Value →
        T2 (mem wa.Entry).Key = some (l1 ++ l2 ++ [wa]) := by
  have hacq : ∃ q, startLockMinder mem lockers (.acquireLock wa) =
      some (lockers.set (mem wa.Entry).Key (q ++ [wa]), []) ∧
      (lockers (mem wa.Entry).Key = none ∧ q = [] ∨ lockers (mem wa.Entry).Key = some q) := by
    cases h : lockers (mem wa.Entry).Key with
    | none => exact ⟨[], acquire_turn_none mem lockers wa h, Or.inl ⟨rfl, rfl⟩⟩
    | some q => exact ⟨q, acquire_turn_some mem lockers wa q h, Or.inr rfl⟩
  obtain ⟨q, h1, hq⟩ := hacq
  have hT1 : (lockers.set (mem wa.Entry).Key (q ++ [wa])) (mem wa.Entry).Key =
      some (q ++ [wa]) := by simp [GoMap.set]
  obtain ⟨l1, a, l2, hsplit, hall, ha⟩ :=
    first_match_split wa.Value (q ++ [wa]) ⟨wa, by simp, rfl⟩
  have h2 := timeout_turn_match mem (lockers.set (mem wa.Entry).Key (q ++ [wa]))
    { Key := (mem wa.Entry).Key, Id := wa.Value } l1 a l2 (by rw [hT1, hsplit]) hall ha
  refine ⟨_, _, h1, by simp [GoMap.set], h2, ?_, ?_, ?_⟩
  · intro k hk
    by_cases hl : l1 ++ l2 = []
    · rw [if_pos hl]; simp [GoMap.delete, GoMap.set, hk]
    · rw [if_neg hl]; simp [GoMap.set, hk]
  · intro hno
    have hq' : ∀ b ∈ q, b.Value ≠ wa.Value := by
      rcases hq with ⟨_, hq0⟩ | hq1
      · subst hq0; simp
      · exact hno q hq1
    have h3 := timeout_turn_match mem (lockers.set (mem wa.Entry).Key (q ++ [wa]))
      { Key := (mem wa.Entry).Key, Id := wa.Value } q wa [] hT1 hq' rfl
    rw [h2] at h3
    simp only [Option.some.injEq, Prod.mk.injEq, and_true] at h3
    rw [h3]
    have hwa : wa ∉ q := fun hm => hq' wa hm rfl
    by_cases hq0 : q = []
    · rcases hq with ⟨hn, _⟩ | hq1
      · simp [hq0, GoMap.delete, hn]
      · simp [hq0, GoMap.delete, hq1]
    · rcases hq with ⟨_, hq2⟩ | hq1
      · exact absurd hq2 hq0
      · simp [hq0, GoMap.set, hwa, hq1]
  · intro m1 c m2 hdec hm1 hc
    have hqe : q = m1 ++ c :: m2 := by
      rcases hq with ⟨hn, _⟩ | hq1
      · rw [hn] at hdec; exact absurd hdec (by simp)
      · rw [hq1] at hdec; exact Option.some.inj hdec
    have h3 := timeout_turn_match mem (lockers.set (mem wa.Entry).Key (q ++ [wa]))
      { Key := (mem wa.Entry).Key, Id := wa.Value } m1 c (m2 ++ [wa])
      (by rw [hT1, hqe]; simp) hm1 hc
    rw [h2] at h3
    simp only [Option.some.injEq, Prod.mk.injEq, and_true] at h3
    rw [h3]
    simp [GoMap.set]

theorem submit_after_failed_SetLockId (W : World) (entry : Nat) (t : String)
    (Config : AppSettings) (hcfg : W.Config = Config)
    (hlocked : (W.mem entry).LockId ≠ "") (hpos : 0 < acquireTimeout Config) :
    (SetLockId W entry t).2 = false ∧
    ∃ W1, AcquireLock.submit (SetLockId W entry t).1 entry
        (acquireTimeout (SetLockId W entry t).1.Config) t =
        some (W1, { Entry := entry, Value := t, Error := W.nchan },
          [Msg.minder (.acquireLock { Entry := entry, Value := t, Error := W.nchan })]) ∧
      W1.mem = W.mem ∧ W1.data = W.data ∧ W1.locks = W.locks ∧ W1.Config = W.Config := by
  subst hcfg
  have hc : (SetLockId W entry t).1.Config = W.Config := by simp [SetLockId, World.store]
  have hnot : ¬ acquireTimeout W.Config ≤ 0 := by omega
  refine ⟨by simp [SetLockId, Entry.SetLockId, hlocked],
    { (SetLockId W entry t).1 with nchan := W.nchan + 1 }, ?_, ?_, rfl, rfl, rfl⟩
  · rw [hc]
    simp only [AcquireLock.submit, if_neg hnot]
    simp [SetLockId, World.store]
  · funext q
    by_cases hq : q = entry
    · subst hq
      simp [SetLockId, Entry.SetLockId, World.store, hlocked]
    · simp [SetLockId, Entry.SetLockId, World.store, hq]

/-- C13, where the claim fails: the entry `k` is locked under `ABCDE` with the
value `old`, the timeout is 5, and the queue of `k` holds the waiter of an
earlier request with the token `AAAAA` and the reply channel 9. The generator
returns `AAAAA`, so `PUT /values/k` submits the waiter with the token `AAAAA`
and the reply channel 0 and waits; on the tick it answers 408 and sends the
timeout for `k` and `AAAAA`. After the lock minder has read the acquire and
then that timeout, the queue of `k` is exactly the request's own waiter: the
earlier waiter was erased. -/
theorem C13_own_waiter_stays_queued :
    ((putVal constRand 1 lockedOld ResponseWriter.new (putRequest "k" "x")).map
        fun x => (x.2.1, x.2.2)) =
      some ([Msg.minder (.acquireLock { Entry := 0, Value := "AAAAA", Error := 0 })],
        .waiting { r := { Entry := 0, Value := "AAAAA", Error := 0 },
                   w := ResponseWriter.new, bytes := "x" }) ∧
    (putValResume lockedOld { r := { Entry := 0, Value := "AAAAA", Error := 0 },
                              w := ResponseWriter.new, bytes := "x" } .tick).2.1 =
      [Msg.minder (.timeoutLock { Key := "k", Id := "AAAAA" })] ∧
    (putValResume lockedOld { r := { Entry := 0, Value := "AAAAA", Error := 0 },
                              w := ResponseWriter.new, bytes := "x" } .tick).2.2.code = 408 ∧
    ((minderRun earlierWaiter
        [(lockedOld.mem, .acquireLock { Entry := 0, Value := "AAAAA", Error := 0 }),
         (lockedOld.mem, .timeoutLock { Key := "k", Id := "AAAAA" })]).map
        fun x => (x.1 "k", x.2)) =
      some (some [{ Entry := 0, Value := "AAAAA", Error := 0 }], [[], []]) := by
  refine ⟨?_, ?_, ?_, ?_⟩ <;> decide

/-- C13: let the key have an entry locked under some token, let the body `b`
read without error, let the configured timeout give a positive duration (the
ticker exists), and let the draw number `n` of `newLockId` be the first that
is not in the registry, with `n < fuel`. Then `putVal` and `reserveKey` both
send one acquire for the waiter (entry, candidate token, new reply channel)
and wait, with every entry cell as before (lock id and value of the entry
included). When the ticker fires first, both answer 408, leave the state as
it is and send exactly one timeout carrying the entry's key and the candidate
token. The lock minder's turns on the acquire and then on the timeout, from
any table, do not panic and send nothing; the waiter is in the key's queue
after the first; the second leaves the other keys untouched and erases the
first waiter of the key's queue that carries the candidate token. When no
waiter queued before carries that token, this is the request's waiter and the
queue is what it was before the acquire; when an earlier waiter `a` is the
first to carry it, `a` is erased and the request's waiter stays at the end of
the queue. -/
theorem C13_acquisition_timeout (rand : Nat → String) (fuel n : Nat) (W : World)
    (w : ResponseWriter) (r : Request) (key b : String) (entry : Nat)
    (lockers : GoMap (List WriteAction))
    (hkey : r.vars "key" = some key) (hbody : r.body = .ok b)
    (hent : W.data.Entries key = some entry)
    (hlocked : (W.mem entry).LockId ≠ "")
    (hpos : 0 < acquireTimeout W.Config)
    (hn : n < fuel)
    (hcol : ∀ m, m < n → W.locks.LockExists (rand (W.rng + 1 + m)) = true)
    (hfresh : W.locks.LockExists (rand (W.rng + 1 + n)) = false)
    (hw : w.wroteHeader = false) :
    (∃ W1, putVal rand fuel W w r =
        some (W1,
          [Msg.minder (.acquireLock
            { Entry := entry, Value := rand (W.rng + 1 + n), Error := W.nchan })],
          .waiting { r := { Entry := entry, Value := rand (W.rng + 1 + n), Error := W.nchan },
                     w := w, bytes := b }) ∧
      W1.mem = W.mem ∧ W1.data = W.data ∧ W1.locks = W.locks ∧
      putValResume W1
          { r := { Entry := entry, Value := rand (W.rng + 1 + n), Error := W.nchan },
            w := w, bytes := b } .tick =
        (W1, [Msg.minder (.timeoutLock
            { Key := (W.mem entry).Key, Id := rand (W.rng + 1 + n) })],
          w.WriteHeader 408)) ∧
    (∃ W1, reserveKey rand fuel W w r =
        some (W1,
          [Msg.minder (.acquireLock
            { Entry := entry, Value := rand (W.rng + 1 + n), Error := W.nchan })],
          .waiting { r := { Entry := entry, Value := rand (W.rng + 1 + n), Error := W.nchan },
                     w := w, bytes := "" }) ∧
      W1.mem = W.mem ∧ W1.data = W.data ∧ W1.locks = W.locks ∧
      reserveKeyResume W1
          { r := { Entry := entry, Value := rand (W.rng + 1 + n), Error := W.nchan },
            w := w, bytes := "" } .tick =
        (W1, [Msg.minder (.timeoutLock
            { Key := (W.mem entry).Key, Id := rand (W.rng + 1 + n) })],
          w.WriteHeader 408)) ∧
    (w.WriteHeader 408).code = 408 ∧
    (w.WriteHeader 408).body = w.body ∧
    ∃ T1 T2,
      startLockMinder W.mem lockers
        (.acquireLock { Entry := entry, Value := rand (W.rng + 1 + n), Error := W.nchan }) =
          some (T1, []) ∧
      ({ Entry := entry, Value := rand (W.rng + 1 + n), Error := W.nchan } : WriteAction) ∈
        (T1 (W.mem entry).Key).getD [] ∧
      startLockMinder W.mem T1
        (.timeoutLock { Key := (W.mem entry).Key, Id := rand (W.rng + 1 + n) }) =
          some (T2, []) ∧
      (∀ k, k ≠ (W.mem entry).Key → T2 k = lockers k) ∧
      ((∀ q, lockers (W.mem entry).Key = some q →
          ∀ a ∈ q, a.Value ≠ rand (W.rng + 1 + n)) →
        ({ Entry := entry, Value := rand (W.rng + 1 + n), Error := W.nchan } : WriteAction) ∉
          (T2 (W.mem entry).Key).getD [] ∧
        (T2 (W.mem entry).Key).getD [] = (lockers (W.mem entry).Key).getD []) ∧
      ∀ l1 a l2, lockers (W.mem entry).Key = some (l1 ++ a :: l2) →
        (∀ c ∈ l1, c.Value ≠ rand (W.rng + 1 + n)) → a.Value = rand (W.rng + 1 + n) →
        T2 (W.mem entry).Key = some (l1 ++ l2 ++
          [{ Entry := entry, Value := rand (W.rng + 1 + n), Error := W.nchan }]) := by
  have hN := newLockId_returns rand n fuel { W with rng := W.rng + 1 } hn hcol hfresh
  obtain ⟨hS, W1, hsub, hmem, hdata, hlocks, _⟩ :=
    submit_after_failed_SetLockId
      { { W with rng := W.rng + 1 } with rng := W.rng + 1 + n + 1 } entry
      (rand (W.rng + 1 + n)) W.Config rfl hlocked hpos
  refine ⟨?_, ?_, ?_, ?_, ?_⟩
  · have hput := putVal_present rand fuel W _ w r key b _ entry hkey hbody hent hN
    rw [if_neg (by rw [hS]; simp), hsub] at hput
    refine ⟨W1, hput, hmem, hdata, hlocks, ?_⟩
    simp [putValResume, AcquireLock.select, Entry.GetKey, hmem]
  · have hres := reserveKey_present rand fuel W _ w r key _ entry hkey hent hN
    rw [if_neg (by rw [hS]; simp), hsub] at hres
    refine ⟨W1, hres, hmem, hdata, hlocks, ?_⟩
    simp [reserveKeyResume, AcquireLock.select, Entry.GetKey, hmem]
  · simp [ResponseWriter.WriteHeader, hw]
  · simp [ResponseWriter.WriteHeader, hw]
  · exact timeout_after_acquire_any W.mem lockers
      { Entry := entry, Value := rand (W.rng + 1 + n), Error := W.nchan }

/-- C13 on a concrete input: the entry `k` locked under `ABCDE` with the value
`old`, the timeout 5, an empty waitlist table, `PUT /values/k` with body `x`,
the generator returning `AAAAA`. -/
theorem C13_acquisition_timeout_witness :
    (∃ W1, putVal constRand 1 lockedOld ResponseWriter.new (putRequest "k" "x") =
        some (W1, [Msg.minder (.acquireLock { Entry := 0, Value := "AAAAA", Error := 0 })],
          .waiting { r := { Entry := 0, Value := "AAAAA", Error := 0 },
                     w := ResponseWriter.new, bytes := "x" }) ∧
      W1.mem 0 = { Key := "k", Value := "old", LockId := "ABCDE" } ∧
      putValResume W1 { r := { Entry := 0, Value := "AAAAA", Error := 0 },
                        w := ResponseWriter.new, bytes := "x" } .tick =
        (W1, [Msg.minder (.timeoutLock { Key := "k", Id := "AAAAA" })],
          ResponseWriter.new.WriteHeader 408)) ∧
    (ResponseWriter.new.WriteHeader 408).code = 408 := by
  obtain ⟨⟨W1, h1, h2, _, _, h3⟩, _, h4, _⟩ :=
    C13_acquisition_timeout constRand 1 0 lockedOld ResponseWriter.new (putRequest "k" "x")
      "k" "x" 0 GoMap.empty (by decide) rfl (by decide) (by decide) (by decide) (by decide)
      (by decide) (by decide) (by decide)
  exact ⟨⟨W1, h1, by rw [h2]; decide, h3⟩, h4⟩

end Httpdb
